import Mathlib

/-!
Verification development for the guardian-angel repository.

JavaScript strings are modelled shallowly as lists of Unicode code points
(`List Nat`); regex character classes (`\w`, `\s`, `\D`) are modelled over
their ASCII ranges, which is what every string handled by the program
(trigger words, transcripts, phone numbers, event names) consists of.
Stateful handlers are modelled as pure functions that, given oracles for the
external collaborators (Twilio, OpenAI), emit a chronological list of steps
(DB writes and provider calls); a `run` function folds the DB writes into a
database state.
-/

namespace Guardian

/-- JS strings: lists of Unicode code points. -/
abbrev Str := List Nat

/-- Embed a Lean string literal into the code-point model. -/
def str (s : String) : Str := s.toList.map Char.toNat

/-- Regex class `\s` (ASCII part): space, tab, LF, VT, FF, CR. -/
def isSpaceC (c : Nat) : Bool :=
  decide (c = 32 ∨ c = 9 ∨ c = 10 ∨ c = 11 ∨ c = 12 ∨ c = 13)

/-- Regex class `\w` (ASCII): `[A-Za-z0-9_]`. -/
def isWordC (c : Nat) : Bool :=
  decide ((48 ≤ c ∧ c ≤ 57) ∨ (65 ≤ c ∧ c ≤ 90) ∨ (97 ≤ c ∧ c ≤ 122) ∨ c = 95)

/-- `String.prototype.toLowerCase`, per code point (ASCII range). -/
def lowerC (c : Nat) : Nat :=
  if 65 ≤ c ∧ c ≤ 90 then c + 32 else c

/-- `.replace(/[^\w\s]/g, ' ')`, per code point. -/
def punctToSpace (c : Nat) : Nat :=
  if isWordC c || isSpaceC c then c else 32

/-- `.replace(/\s+/g, ' ')`: collapse every whitespace run to a single
space. The boolean records whether the previous input char was whitespace. -/
def collapseWs : Bool → Str → Str
  | _, [] => []
  | prevSpace, c :: cs =>
    if isSpaceC c then
      if prevSpace then collapseWs true cs else 32 :: collapseWs true cs
    else c :: collapseWs false cs

/-- Drop trailing whitespace (right half of `String.prototype.trim`). -/
def dropTrailingWs : Str → Str
  | [] => []
  | c :: cs =>
    match dropTrailingWs cs with
    | [] => if isSpaceC c then [] else [c]
    | r => c :: r

/-- `String.prototype.trim` (ASCII whitespace). -/
def jsTrim (l : Str) : Str := dropTrailingWs (l.dropWhile isSpaceC)

/-- A JS value as it may arrive at `normalizeText`: a string, `null`,
`undefined`, or some other non-string value. -/
inductive JsVal where
  | str (s : Str)
  | nullv
  | undef
  | other
deriving DecidableEq

/-- The string pipeline of `normalizeText` (src/wordDetector.js:7-11):
lowercase, punctuation to space, collapse whitespace, trim. -/
def normalizeStr (s : Str) : Str :=
  jsTrim (collapseWs false ((s.map lowerC).map punctToSpace))

/-- `normalizeText` (src/wordDetector.js:5-12) including the
`!text || typeof text !== 'string'` guard. -/
def normalizeText : JsVal → Str
  | .str s => if s.isEmpty then [] else normalizeStr s
  | _ => []

/-- `containsWord` (src/wordDetector.js:18-25).  The regex
`\bW\b|W` on the normalized text is substring occurrence of the normalized
word (the second alternative subsumes the first; `escapeRegex` makes the
word literal). -/
def containsWord (text word : JsVal) : Bool :=
  let normalized := normalizeText text
  let normalizedWord := normalizeText word
  if normalizedWord.isEmpty then false
  else decide (normalizedWord <:+: normalized)

def resEscalate : Str := str ("escalate")

def resSafe : Str := str ("safe")

def resUnknown : Str := str ("unknown")

/-- `analyzeResponse` (src/wordDetector.js:35-49): escalation checked
before safe word, `unknown` otherwise. -/
def analyzeResponse (transcription safeWord escalationWord : JsVal) : Str :=
  let normalized := normalizeText transcription
  if containsWord (.str normalized) escalationWord then resEscalate
  else if containsWord (.str normalized) safeWord then resSafe
  else resUnknown

example : analyzeResponse (.str (str ("I'm fine, PINEAPPLE!")))
    (.str (str ("pineapple"))) (.str (str ("banana"))) = resSafe := by decide

example : analyzeResponse (.str (str ("banana pineapple")))
    (.str (str ("pineapple"))) (.str (str ("banana"))) = resEscalate := by decide

example : analyzeResponse (.str (str ("I don't know")))
    (.str (str ("pineapple"))) (.str (str ("banana"))) = resUnknown := by decide

/-! ## Data model (src/schema.sql, src/unnamed/part_002 = db helpers) -/

/-- Session status (schema.sql: pending, active, completed, escalated, cancelled). -/
inductive Status where
  | pending
  | active
  | completed
  | escalated
  | cancelled
deriving DecidableEq, Repr

/-- A row of the `sessions` table. -/
structure Session where
  id : Str
  user_phone : Str
  safe_word : Str
  escalation_word : Str
  location : Option Str
  scheduled_at : Int
  status : Status
  created_at : Int
  updated_at : Int
deriving DecidableEq, Repr

/-- A row of the `emergency_contacts` table (`is_primary` is the stored
0/1 integer). -/
structure Contact where
  session_id : Str
  phone_number : Str
  is_primary : Nat
  display_order : Nat
deriving DecidableEq, Repr

/-- A JSON payload value as stored in `event_log.payload`. -/
inductive PVal where
  | s (v : Str)
  | q (v : ℚ)
  | b (v : Bool)
  | n
deriving DecidableEq

abbrev Payload := List (Str × PVal)

/-- A row of the append-only `event_log` table. -/
structure Event where
  session_id : Option Str
  event_type : Str
  payload : Option Payload
deriving DecidableEq

/-- The durable store: sessions, contacts (in rowid/insertion order), and
the append-only event log. -/
structure DBState where
  sessions : List Session
  contacts : List Contact
  events : List Event
deriving DecidableEq

/-- Result of a provider call (`await` that either returns or throws). -/
inductive JsResult where
  | ok (value : Str)
  | error (message : Str)
deriving DecidableEq

/-- What the OpenAI chat completion yields inside `classifyDistressIntent`:
a parsed numeric score and reason, no content, or a thrown error. -/
inductive ClassifyApi where
  | ok (score : ℚ) (reason : Str)
  | noContent
  | error (message : Str)
deriving DecidableEq

/-- Return value of `classifyDistressIntent` (src/openai.js:21-76). -/
structure DistressResult where
  isDistressed : Bool
  score : ℚ
  reason : Str
deriving DecidableEq

/-- Oracles for the external collaborators, fixed per scenario. -/
structure World where
  sms : Str → Str → JsResult
  checkIn : Str → Str → JsResult
  emergencyCall : Str → Str → Str → JsResult
  transcribe : Str → JsResult
  classify : Str → ClassifyApi
  nowIso : Str
  baseUrl : Str

/-- One observable step of a handler: a DB write or a provider call, in
chronological order. -/
inductive Step where
  | logE (sid : Option Str) (etype : Str) (payload : Option Payload)
  | setStatus (sid : Str) (st : Status)
  | setLocation (sid : Str) (loc : Str)
  | smsSend (phone : Str) (body : Str) (result : JsResult)
  | checkInCall (phone : Str) (sid : Str) (result : JsResult)
  | emergencyCall (phone : Str) (sid : Str) (userPhone : Str) (result : JsResult)
  | whisperCall (url : Str) (result : JsResult)
  | classifyCall (text : Str) (result : DistressResult)
deriving DecidableEq

/-- Interpret the DB-writing steps (`logEvent`, `updateSessionStatus`,
`updateSessionLocation` in src/unnamed/part_002); provider calls do not
change the store. Both update helpers also set `updated_at = datetime('now')`. -/
def applyStep (now : Int) (db : DBState) : Step → DBState
  | .logE sid etype payload => { db with events := db.events ++ [⟨sid, etype, payload⟩] }
  | .setStatus sid st =>
    { db with sessions := db.sessions.map fun s =>
        if s.id == sid then { s with status := st, updated_at := now } else s }
  | .setLocation sid loc =>
    { db with sessions := db.sessions.map fun s =>
        if s.id == sid then { s with location := some loc, updated_at := now } else s }
  | _ => db

def run (now : Int) (steps : List Step) (db : DBState) : DBState :=
  steps.foldl (applyStep now) db

/-- `getSession` (src/unnamed/part_002:63-69), session row only; contacts
are fetched by `getEmergencyContacts` below. -/
def getSession (db : DBState) (sid : Str) : Option Session :=
  db.sessions.find? fun s => s.id == sid

/-- All contact rows of a session, in rowid (insertion) order. -/
def sessionContacts (db : DBState) (sid : Str) : List Contact :=
  db.contacts.filter fun c => c.session_id == sid

/-- Stable insertion sort (used to model SQL `ORDER BY`). -/
def insSorted (le : α → α → Bool) (x : α) : List α → List α
  | [] => [x]
  | y :: ys => if le x y then x :: y :: ys else y :: insSorted le x ys

def insSortBy (le : α → α → Bool) : List α → List α
  | [] => []
  | x :: xs => insSorted le x (insSortBy le xs)

/-- `ORDER BY is_primary DESC, display_order`. -/
def contactLE (a b : Contact) : Bool :=
  decide (b.is_primary < a.is_primary) ||
    (a.is_primary == b.is_primary && decide (a.display_order ≤ b.display_order))

/-- `ORDER BY display_order`. -/
def displayLE (a b : Contact) : Bool :=
  decide (a.display_order ≤ b.display_order)

/-- `getEmergencyContacts` (src/unnamed/part_002:126-130). -/
def getEmergencyContacts (db : DBState) (sid : Str) : List Contact :=
  insSortBy contactLE (sessionContacts db sid)

/-- `getPrimaryContact` (src/unnamed/part_002:113-121): first row with
`is_primary = 1` (plain `LIMIT 1`, i.e. rowid order), else the
`ORDER BY display_order LIMIT 1` row. -/
def getPrimaryContact (db : DBState) (sid : Str) : Option Contact :=
  match (sessionContacts db sid).find? (fun c => c.is_primary == 1) with
  | some c => some c
  | none => (insSortBy displayLE (sessionContacts db sid)).head?

/-! ## Event types and payload keys used by the handlers -/

def evCallInitiated : Str := str ("call_initiated")

def evCallOutboundSent : Str := str ("call_outbound_sent")

def evCallFailed : Str := str ("call_failed")

def evRecordingComplete : Str := str ("recording_complete")

def evWhisperTranscription : Str := str ("whisper_transcription")

def evWhisperTranscriptionFailed : Str := str ("whisper_transcription_failed")

def evTranscriptionReceived : Str := str ("transcription_received")

def evEscalationWordDetected : Str := str ("escalation_word_detected")

def evSafeWordDetected : Str := str ("safe_word_detected")

def evOpenaiClassification : Str := str ("openai_classification")

def evAiDistressDetected : Str := str ("ai_distress_detected")

def evNoTranscriptionAvailable : Str := str ("no_transcription_available")

def evEscalationTriggered : Str := str ("escalation_triggered")

def evLocationRequestSmsSent : Str := str ("location_request_sms_sent")

def evLocationRequestSmsFailed : Str := str ("location_request_sms_failed")

def evSmsSent : Str := str ("sms_sent")

def evSmsFailed : Str := str ("sms_failed")

def evEmergencyCallInitiated : Str := str ("emergency_call_initiated")

def evEmergencyCallFailed : Str := str ("emergency_call_failed")

def evLocationSubmitted : Str := str ("location_submitted")

def evLocationUpdateSmsSent : Str := str ("location_update_sms_sent")

def evLocationUpdateSmsFailed : Str := str ("location_update_sms_failed")

def kUserPhone : Str := str ("userPhone")

def kLocation : Str := str ("location")

def kTimestamp : Str := str ("timestamp")

def kTo : Str := str ("to")

def kError : Str := str ("error")

def kIsPrimary : Str := str ("isPrimary")

def kText : Str := str ("text")

def kStatus : Str := str ("status")

def kScore : Str := str ("score")

def kReason : Str := str ("reason")

def kIsDistressed : Str := str ("isDistressed")

def kTranscriptionText : Str := str ("transcriptionText")

def kTranscription : Str := str ("transcription")

def kConfidence : Str := str ("confidence")

def kRecordingSid : Str := str ("recordingSid")

def kDuration : Str := str ("duration")

def kTranscriptionStatus : Str := str ("transcriptionStatus")

def kSubmittedAt : Str := str ("submittedAt")

def optPV : Option Str → PVal
  | some s => .s s
  | none => .n

/-! ## OpenAI service (src/openai.js) -/

def DISTRESS_THRESHOLD : ℚ := 7/10

/-- `classifyDistressIntent` (src/openai.js:21-76): empty/whitespace input
and any API failure yield a not-distressed result; otherwise
`isDistressed = score >= DISTRESS_THRESHOLD`. -/
def classifyDistressIntent (w : World) (transcription : Str) : DistressResult :=
  if transcription.isEmpty || (jsTrim transcription).isEmpty then
    ⟨false, 0, str ("Empty response")⟩
  else
    match w.classify transcription with
    | .ok score reason => ⟨decide (DISTRESS_THRESHOLD ≤ score), score, reason⟩
    | .noContent => ⟨false, 0, str ("No response from model")⟩
    | .error m => ⟨false, 0, str ("API error: ") ++ m⟩

/-! ## Escalation Ladder (src/escalation.js) -/

/-- `session.location || null`: an empty stored location is treated as null. -/
def locationOrNull : Option Str → Option Str
  | some v => if v.isEmpty then none else some v
  | none => none

/-- The location-request SMS sent to the subject (src/escalation.js:41-47). -/
def userLocationSMSBody (baseUrl sid : Str) : Str :=
  str ("🚨 GUARDIAN AI has triggered an emergency alert for you.\n\nYour emergency contacts have been notified.\n\nReply with your location or click to submit: ")
    ++ baseUrl ++ str ("/location?sessionId=") ++ sid ++ str ("\n\nStay safe.")

/-- The Level-1 distress alert SMS body (src/escalation.js:63-71). -/
def distressSmsBody (userPhone : Str) (location : Option Str) : Str :=
  str ("🚨 GUARDIAN AI DISTRESS ALERT 🚨\n\nWe received an escalation signal from ")
    ++ userPhone ++ str (".\n\nPlease check on them immediately.")
    ++ (match location with
        | some l => str ("\n\nLocation: ") ++ l
        | none => [])
    ++ str ("\n\nThis is an automated alert from Guardian AI.")

def locPVOf (session : Session) : PVal :=
  match locationOrNull session.location with
  | some l => .s l
  | none => .n

/-- src/escalation.js:49-60: location-request SMS to the subject, outcome
logged, failure non-fatal. -/
def escUserSmsBlock (w : World) (sessionId : Str) (session : Session) : List Step :=
  let body := userLocationSMSBody w.baseUrl sessionId
  Step.smsSend session.user_phone body (w.sms session.user_phone body) ::
  match w.sms session.user_phone body with
  | .ok _ => [Step.logE (some sessionId) evLocationRequestSmsSent (some [(kTo, .s session.user_phone)])]
  | .error e => [Step.logE (some sessionId) evLocationRequestSmsFailed (some [(kError, .s e)])]

/-- src/escalation.js:74-88: one iteration of the Level-1 SMS loop — a send
and the log of its own outcome. -/
def escContactBlock (w : World) (sessionId : Str) (smsBody : Str) (contact : Contact) : List Step :=
  Step.smsSend contact.phone_number smsBody (w.sms contact.phone_number smsBody) ::
  match w.sms contact.phone_number smsBody with
  | .ok _ => [Step.logE (some sessionId) evSmsSent
      (some [(kTo, .s contact.phone_number), (kIsPrimary, .b (contact.is_primary == 1))])]
  | .error e => [Step.logE (some sessionId) evSmsFailed
      (some [(kTo, .s contact.phone_number), (kError, .s e)])]

/-- src/escalation.js:99-109: the log of the Level-2 call's own outcome. -/
def escPrimaryResultLog (w : World) (sessionId : Str) (session : Session) (primary : Contact) :
    List Step :=
  match w.emergencyCall primary.phone_number sessionId session.user_phone with
  | .ok _ => [Step.logE (some sessionId) evEmergencyCallInitiated
      (some [(kTo, .s primary.phone_number), (kLocation, locPVOf session)])]
  | .error e => [Step.logE (some sessionId) evEmergencyCallFailed
      (some [(kTo, .s primary.phone_number), (kError, .s e)])]

/-- src/escalation.js:91-110: the Level-2 call to the primary contact. -/
def escPrimaryBlock (w : World) (sessionId : Str) (session : Session) (db : DBState) : List Step :=
  match getPrimaryContact db sessionId with
  | none => []
  | some primary =>
    Step.emergencyCall primary.phone_number sessionId session.user_phone
      (w.emergencyCall primary.phone_number sessionId session.user_phone) ::
    escPrimaryResultLog w sessionId session primary

/-- Everything `triggerEscalation` does after the initial status write
(src/escalation.js:33-110). -/
def escalationTail (w : World) (sessionId : Str) (db : DBState) (session : Session) : List Step :=
  Step.logE (some sessionId) evEscalationTriggered
    (some [(kUserPhone, .s session.user_phone), (kLocation, locPVOf session), (kTimestamp, .s w.nowIso)]) ::
  escUserSmsBlock w sessionId session
  ++ (getEmergencyContacts db sessionId).flatMap
      (escContactBlock w sessionId (distressSmsBody session.user_phone (locationOrNull session.location)))
  ++ escPrimaryBlock w sessionId session db

/-- `triggerEscalation` (src/escalation.js:21-111): status write first, then
the escalation event, the location-request SMS to the subject, Level-1 SMS
to every contact (each outcome logged on its own), Level-2 call to the
primary contact. Unknown session: nothing happens. -/
def triggerEscalationSteps (w : World) (sessionId : Str) (db : DBState) : List Step :=
  match getSession db sessionId with
  | none => []
  | some session =>
    Step.setStatus sessionId Status.escalated :: escalationTail w sessionId db session

/-! ## Recording-complete and transcription webhooks (src/webhooks.js) -/

/-- Request body of the recording-complete callback.
`transcriptionText` is the resolved `TranscriptionText || transcriptionText || ''`. -/
structure RecordingBody where
  transcriptionText : Str
  recordingSid : Option Str
  recordingUrl : Option Str
  recordingDuration : Option Str
  transcriptionStatus : Option Str
deriving DecidableEq

/-- Whisper fallback steps (src/webhooks.js:201-211): only taken when the
provider text is empty and a recording URL is present. -/
def whisperSteps (w : World) (sid : Str) (body : RecordingBody) : List Step :=
  if body.transcriptionText.isEmpty then
    match body.recordingUrl with
    | some url =>
      Step.whisperCall url (w.transcribe url) ::
      (match w.transcribe url with
       | .ok t => [Step.logE (some sid) evWhisperTranscription (some [(kText, .s t)])]
       | .error e => [Step.logE (some sid) evWhisperTranscriptionFailed (some [(kError, .s e)])])
    | none => []
  else []

/-- The transcript the handler ends up with after the Whisper fallback:
the provider text if non-empty, else Whisper's result, else empty. -/
def resolvedTranscript (w : World) (body : RecordingBody) : Str :=
  if body.transcriptionText.isEmpty then
    match body.recordingUrl with
    | some url =>
      match w.transcribe url with
      | .ok t => t
      | .error _ => []
    | none => []
  else body.transcriptionText

/-- The `unknown` branch of the recording-complete handler
(src/webhooks.js:241-255): classifier call, classification event, then
escalation or completion. -/
def classificationSteps (w : World) (sid : Str) (t : Str) (db : DBState) : List Step :=
  let r := classifyDistressIntent w t
  Step.classifyCall t r ::
  Step.logE (some sid) evOpenaiClassification
    (some [(kTranscriptionText, .s t), (kScore, .q r.score), (kReason, .s r.reason), (kIsDistressed, .b r.isDistressed)]) ::
  (if r.isDistressed then
    Step.logE (some sid) evAiDistressDetected (some [(kScore, .q r.score), (kReason, .s r.reason)]) ::
      triggerEscalationSteps w sid db
   else [Step.setStatus sid Status.completed])

/-- src/webhooks.js:192-198: the `recording_complete` event, logged only
when a RecordingSid is present. -/
def recordingSidBlock (sid : Str) (body : RecordingBody) : List Step :=
  match body.recordingSid with
  | some rsid => [Step.logE (some sid) evRecordingComplete
      (some [(kRecordingSid, .s rsid), (kDuration, optPV body.recordingDuration),
             (kTranscriptionStatus, optPV body.transcriptionStatus)])]
  | none => []

/-- `router.all('/recording-complete')` (src/webhooks.js:168-266), the state
mutations and provider calls it performs.  Missing or unknown session id:
nothing happens (only a hangup response is sent). -/
def recordingCompleteSteps (w : World) (sessionId : Option Str) (body : RecordingBody)
    (db : DBState) : List Step :=
  match sessionId with
  | none => []
  | some sid =>
    match getSession db sid with
    | none => []
    | some session =>
      recordingSidBlock sid body
      ++ whisperSteps w sid body
      ++ (let t := resolvedTranscript w body
          if t.isEmpty then
            [Step.logE (some sid) evNoTranscriptionAvailable (some [])]
          else
            Step.logE (some sid) evTranscriptionReceived
              (some [(kText, .s t), (kStatus, optPV body.transcriptionStatus)]) ::
            (let result := analyzeResponse (.str t) (.str session.safe_word) (.str session.escalation_word)
             if result == resEscalate then
               Step.logE (some sid) evEscalationWordDetected (some [(kTranscriptionText, .s t)]) ::
                 triggerEscalationSteps w sid db
             else if result == resSafe then
               [Step.logE (some sid) evSafeWordDetected (some [(kTranscriptionText, .s t)]),
                Step.setStatus sid Status.completed]
             else classificationSteps w sid t db))

/-- `router.post('/transcription')` (src/webhooks.js:273-328). -/
def transcriptionSteps (w : World) (sessionId : Option Str) (transcription : Str)
    (transcriptionStatus : Option Str) (db : DBState) : List Step :=
  match sessionId with
  | none => []
  | some sid =>
    match getSession db sid with
    | none => []
    | some session =>
      Step.logE (some sid) evTranscriptionReceived
        (some [(kText, .s transcription), (kConfidence, optPV transcriptionStatus)]) ::
      (let result := analyzeResponse (.str transcription) (.str session.safe_word) (.str session.escalation_word)
       if result == resEscalate then
         Step.logE (some sid) evEscalationWordDetected (some [(kTranscription, .s transcription)]) ::
           triggerEscalationSteps w sid db
       else if result == resSafe then
         [Step.logE (some sid) evSafeWordDetected (some [(kTranscription, .s transcription)]),
          Step.setStatus sid Status.completed]
       else
         let r := classifyDistressIntent w transcription
         Step.classifyCall transcription r ::
         Step.logE (some sid) evOpenaiClassification
           (some [(kTranscription, .s transcription), (kScore, .q r.score), (kReason, .s r.reason), (kIsDistressed, .b r.isDistressed)]) ::
         (if r.isDistressed then
            Step.logE (some sid) evAiDistressDetected (some [(kScore, .q r.score), (kReason, .s r.reason)]) ::
              triggerEscalationSteps w sid db
          else [Step.setStatus sid Status.completed]))

/-! ## Scheduler (src/index.js) -/

def sessionLE (a b : Session) : Bool := decide (a.scheduled_at ≤ b.scheduled_at)

/-- The due set of a tick: `status = 'pending' ORDER BY scheduled_at ASC`,
then the client-side `scheduled_at <= now` filter (src/index.js:25-29). -/
def dueSessions (db : DBState) (now : Int) : List Session :=
  (insSortBy sessionLE (db.sessions.filter fun s => s.status == Status.pending)).filter
    fun s => decide (s.scheduled_at ≤ now)

/-- Per-session body of the scheduler loop (src/index.js:35-47):
`call_initiated` event and `active` status precede the initiation attempt;
a thrown initiation logs `call_failed` and reverts to `pending`. -/
def checkInSteps (w : World) (s : Session) : List Step :=
  Step.logE (some s.id) evCallInitiated (some [(kUserPhone, .s s.user_phone)]) ::
  Step.setStatus s.id Status.active ::
  Step.checkInCall s.user_phone s.id (w.checkIn s.user_phone s.id) ::
  (match w.checkIn s.user_phone s.id with
   | .ok _ => [Step.logE (some s.id) evCallOutboundSent (some [(kUserPhone, .s s.user_phone)])]
   | .error e => [Step.logE (some s.id) evCallFailed (some [(kError, .s e)]),
                  Step.setStatus s.id Status.pending])

/-- `checkDueSessions` (src/index.js:20-51).  `isRunning` is the
mutual-exclusion flag: a tick that starts while it is set does nothing. -/
def checkDueSessionsSteps (w : World) (now : Int) (isRunning : Bool) (db : DBState) : List Step :=
  if isRunning then [] else (dueSessions db now).flatMap (checkInSteps w)

/-! ## REST routes (src/unnamed/part_001 = routes/api.js) -/

/-- Regex class `\D` complement: ASCII digits kept by `normalizePhone`. -/
def isDigitC (c : Nat) : Bool := decide (48 ≤ c ∧ c ≤ 57)

/-- `normalizePhone` (src/unnamed/part_001:28-33). Code point 49 is the
digit 1 and 43 is the plus sign. -/
def normalizePhone (phone : Str) : Str :=
  let cleaned := phone.filter isDigitC
  if cleaned.length == 10 then str ("+1") ++ cleaned
  else if cleaned.length == 11 && cleaned.head? == some 49 then str ("+") ++ cleaned
  else if phone.head? == some 43 then phone
  else str ("+") ++ phone

/-- A contact entry of the activation request body. -/
structure ReqContact where
  phone : Str
  isPrimary : Bool
deriving DecidableEq

def mapWithIndex (f : Nat → α → β) : Nat → List α → List β
  | _, [] => []
  | i, x :: xs => f i x :: mapWithIndex f (i + 1) xs

/-- The `contactList` computed by `router.post('/activate')`
(src/unnamed/part_001:85-88): the first contact is always flagged primary. -/
def contactListOf (contacts : List ReqContact) : List (Str × Bool) :=
  mapWithIndex
    (fun i c => (normalizePhone c.phone, c.isPrimary || (i == 0 && decide (0 < contacts.length))))
    0 contacts

/-- `addEmergencyContacts` (src/unnamed/part_002:47-58): rows are inserted
in list order with `display_order = i`. -/
def addEmergencyContacts (sessionId : Str) (contactList : List (Str × Bool)) (db : DBState) : DBState :=
  { db with contacts := db.contacts ++
      mapWithIndex (fun i pc => ⟨sessionId, pc.1, if pc.2 then 1 else 0, i⟩) 0 contactList }

/-- The "updated location" SMS body (src/unnamed/part_001:263-271). -/
def locationUpdateSmsBody (userPhone locationStr : Str) : Str :=
  str ("🚨 GUARDIAN AI - LOCATION UPDATE 🚨\n\nUser ") ++ userPhone
    ++ str (" has provided their location.\n\nLocation: ") ++ locationStr
    ++ str ("\n\nPlease check on them immediately.\n\nThis is an automated alert from Guardian AI.")

/-- One iteration of the updated-location broadcast loop
(src/unnamed/part_001:273-288): a send and the log of its own outcome. -/
def locContactBlock (w : World) (sessionId : Str) (locationStr userPhone : Str) (contact : Contact) : List Step :=
  let bodyMsg := locationUpdateSmsBody userPhone locationStr
  Step.smsSend contact.phone_number bodyMsg (w.sms contact.phone_number bodyMsg) ::
  match w.sms contact.phone_number bodyMsg with
  | .ok _ => [Step.logE (some sessionId) evLocationUpdateSmsSent
      (some [(kTo, .s contact.phone_number), (kLocation, .s locationStr)])]
  | .error e => [Step.logE (some sessionId) evLocationUpdateSmsFailed
      (some [(kTo, .s contact.phone_number), (kError, .s e)])]

/-- `router.post('/send-location')` (src/unnamed/part_001:229-299): validate,
persist the trimmed location, log it, then broadcast to every contact with
each outcome logged under its own address. -/
def sendLocationSteps (w : World) (sessionId location : Str) (db : DBState) : List Step :=
  if sessionId.isEmpty || location.isEmpty then []
  else
    match getSession db sessionId with
    | none => []
    | some session =>
      let locationStr := jsTrim location
      if locationStr.isEmpty || decide (500 < locationStr.length) then []
      else
        Step.setLocation sessionId locationStr ::
        Step.logE (some sessionId) evLocationSubmitted
          (some [(kLocation, .s locationStr), (kSubmittedAt, .s w.nowIso)]) ::
        (getEmergencyContacts db sessionId).flatMap
          (locContactBlock w sessionId locationStr session.user_phone)

/-- Modelled from the spec: the §3 primary-resolution rule stated over the
activation request's contact list ("the set's first-by-order-with-primary-flag
is treated as primary — if none is flagged primary, the lowest `displayOrder`
contact is primary by default"), for comparison with the code's behaviour. -/
def specPrimaryContact (contacts : List ReqContact) : Option ReqContact :=
  match contacts.find? (fun c => c.isPrimary) with
  | some c => some c
  | none => contacts.head?

/-- The phones receiving a Level-2 voice call in a step trace. -/
def emergencyCallPhones (steps : List Step) : List Str :=
  steps.filterMap fun st =>
    match st with
    | .emergencyCall ph _ _ _ => some ph
    | _ => none

/-! ## Concrete fixtures for counterexamples and witnesses -/

def exWorld : World where
  sms := fun _ _ => .ok (str ("SM1"))
  checkIn := fun _ _ => .ok (str ("CA1"))
  emergencyCall := fun _ _ _ => .ok (str ("CA2"))
  transcribe := fun _ => .error (str ("download failed"))
  classify := fun _ => .ok 0 (str ("fine"))
  nowIso := str ("2026-01-01T00:00:00.000Z")
  baseUrl := str ("http://localhost:3000")

def exSid : Str := str ("s1")

def exSession : Session where
  id := exSid
  user_phone := str ("+15550001111")
  safe_word := str ("pineapple")
  escalation_word := str ("banana")
  location := none
  scheduled_at := 0
  status := Status.active
  created_at := 0
  updated_at := 0

/-- Recording-complete body with no transcript and no recording at all. -/
def exEmptyBody : RecordingBody where
  transcriptionText := []
  recordingSid := none
  recordingUrl := none
  recordingDuration := none
  transcriptionStatus := none

def exDb : DBState where
  sessions := [exSession]
  contacts := []
  events := []

def exCompletedDb : DBState where
  sessions := [{ exSession with status := Status.completed }]
  contacts := []
  events := []

def exBananaBody : RecordingBody where
  transcriptionText := str ("banana")
  recordingSid := none
  recordingUrl := none
  recordingDuration := none
  transcriptionStatus := none

def exReqContacts : List ReqContact :=
  [⟨str ("+15550000001"), false⟩, ⟨str ("+15550000002"), true⟩]

def exC3Db : DBState :=
  addEmergencyContacts exSid (contactListOf exReqContacts)
    { sessions := [exSession], contacts := [], events := [] }

/-! ## Normalization theory: `normalizeStr` is idempotent -/

/-- A code point that `normalizeStr` can output: a word char that is not an
uppercase letter, or the single space. -/
def goodC (c : Nat) : Bool :=
  (isWordC c && !(decide (65 ≤ c ∧ c ≤ 90))) || c == 32

/-- No two adjacent whitespace code points. -/
def noAdj : Str → Bool
  | a :: b :: t => !(isSpaceC a && isSpaceC b) && noAdj (b :: t)
  | _ => true

theorem lowerC_idem (c : Nat) : lowerC (lowerC c) = lowerC c := by
  unfold lowerC
  split_ifs <;> omega

theorem goodC_lowerC {c : Nat} (h : goodC c = true) : lowerC c = c := by
  simp [goodC, isWordC] at h
  unfold lowerC
  split_ifs with h2
  · omega
  · rfl

theorem goodC_punctToSpace {c : Nat} (h : goodC c = true) : punctToSpace c = c := by
  simp [goodC, isWordC] at h
  unfold punctToSpace
  split_ifs with h2
  · rfl
  · simp [isWordC, isSpaceC] at h2
    omega

theorem goodC_space32 {c : Nat} (h : goodC c = true) (hs : isSpaceC c = true) : c = 32 := by
  simp [goodC, isWordC] at h
  simp [isSpaceC] at hs
  omega

theorem pipe_goodC (a : Nat) :
    goodC (punctToSpace (lowerC a)) = true ∨ isSpaceC (punctToSpace (lowerC a)) = true := by
  unfold punctToSpace lowerC
  split_ifs with h1 h2 h3 <;> simp [goodC, isWordC, isSpaceC] at * <;> omega

theorem noAdj_cons {a : Nat} {l : Str} (h : noAdj (a :: l) = true) : noAdj l = true := by
  cases l with
  | nil => rfl
  | cons b t =>
    unfold noAdj at h
    exact (Bool.and_eq_true_iff.mp h).2

theorem noAdj_cons_of {a : Nat} {l : Str}
    (hh : isSpaceC a = false ∨ ∀ c, l.head? = some c → isSpaceC c = false)
    (hl : noAdj l = true) : noAdj (a :: l) = true := by
  cases l with
  | nil => rfl
  | cons b t =>
    unfold noAdj
    rw [Bool.and_eq_true_iff]
    refine ⟨?_, hl⟩
    rcases hh with h | h
    · simp [h]
    · simp [h b rfl]

theorem mem_collapseWs {c : Nat} : ∀ (b : Bool) (l : Str), c ∈ collapseWs b l → c ∈ l ∨ c = 32
  | _, [], h => by simp [collapseWs] at h
  | b, a :: as, h => by
    unfold collapseWs at h
    by_cases hs : isSpaceC a = true
    · rw [if_pos hs] at h
      cases b with
      | true =>
        simp only at h
        rcases mem_collapseWs true as h with h2 | h2
        · exact Or.inl (List.mem_cons_of_mem a h2)
        · exact Or.inr h2
      | false =>
        rw [if_neg Bool.false_ne_true] at h
        rcases List.mem_cons.mp h with h2 | h2
        · exact Or.inr h2
        · rcases mem_collapseWs true as h2 with h3 | h3
          · exact Or.inl (List.mem_cons_of_mem a h3)
          · exact Or.inr h3
    · rw [if_neg hs] at h
      rcases List.mem_cons.mp h with h2 | h2
      · exact Or.inl (h2 ▸ List.mem_cons_self a as)
      · rcases mem_collapseWs false as h2 with h3 | h3
        · exact Or.inl (List.mem_cons_of_mem a h3)
        · exact Or.inr h3

theorem collapseWs_space32 {c : Nat} :
    ∀ (b : Bool) (l : Str), c ∈ collapseWs b l → isSpaceC c = true → c = 32
  | _, [], h, _ => by simp [collapseWs] at h
  | b, a :: as, h, hc => by
    unfold collapseWs at h
    by_cases hs : isSpaceC a = true
    · rw [if_pos hs] at h
      cases b with
      | true => exact collapseWs_space32 true as h hc
      | false =>
        rcases List.mem_cons.mp h with h2 | h2
        · exact h2
        · exact collapseWs_space32 true as h2 hc
    · rw [if_neg hs] at h
      rcases List.mem_cons.mp h with h2 | h2
      · rw [h2] at hc
        rw [hc] at hs
        exact absurd rfl hs
      · exact collapseWs_space32 false as h2 hc

theorem collapseWs_true_head :
    ∀ (l : Str) (c : Nat), (collapseWs true l).head? = some c → isSpaceC c = false
  | [], c, h => by simp [collapseWs] at h
  | a :: as, c, h => by
    unfold collapseWs at h
    by_cases hs : isSpaceC a = true
    · rw [if_pos hs] at h
      exact collapseWs_true_head as c h
    · rw [if_neg hs] at h
      simp only [List.head?_cons, Option.some_inj] at h
      rw [← h]
      exact Bool.not_eq_true _ ▸ (by simpa using hs)

theorem noAdj_collapseWs : ∀ (b : Bool) (l : Str), noAdj (collapseWs b l) = true
  | _, [] => rfl
  | b, a :: as => by
    unfold collapseWs
    by_cases hs : isSpaceC a = true
    · rw [if_pos hs]
      cases b with
      | true => exact noAdj_collapseWs true as
      | false =>
        refine noAdj_cons_of (Or.inr ?_) (noAdj_collapseWs true as)
        exact fun c h => collapseWs_true_head as c h
    · rw [if_neg hs]
      refine noAdj_cons_of (Or.inl ?_) (noAdj_collapseWs false as)
      simpa using hs

theorem collapseWs_fix :
    ∀ (b : Bool) (l : Str), (∀ c ∈ l, isSpaceC c = true → c = 32) → noAdj l = true →
      (b = true → ∀ c, l.head? = some c → isSpaceC c = false) → collapseWs b l = l
  | _, [], _, _, _ => rfl
  | b, a :: as, h32, hadj, hb => by
    unfold collapseWs
    by_cases hs : isSpaceC a = true
    · cases b with
      | true => exact absurd hs (by simp [hb rfl a rfl])
      | false =>
        rw [if_pos hs]
        have ha : a = 32 := h32 a (List.mem_cons_self a as) hs
        have tail : collapseWs true as = as := by
          refine collapseWs_fix true as (fun c hc h => h32 c (List.mem_cons_of_mem a hc) h)
            (noAdj_cons hadj) (fun _ c hc => ?_)
          cases as with
          | nil => simp at hc
          | cons x xs =>
            simp only [List.head?_cons, Option.some_inj] at hc
            subst hc
            unfold noAdj at hadj
            rcases Bool.and_eq_true_iff.mp hadj with ⟨h1, _⟩
            rcases Bool.not_eq_true' .. |>.mp h1 |> Bool.and_eq_false_iff.mp with h2 | h2
            · exact absurd hs (by simp [h2])
            · exact h2
        rw [ha, tail, if_neg Bool.false_ne_true]
    · rw [if_neg hs]
      have tail : collapseWs false as = as :=
        collapseWs_fix false as (fun c hc h => h32 c (List.mem_cons_of_mem a hc) h)
          (noAdj_cons hadj) (by intro h; cases h)
      rw [tail]

theorem head?_dropWhile_not {p : Nat → Bool} {c : Nat} :
    ∀ l : Str, (l.dropWhile p).head? = some c → p c = false
  | [], h => by simp at h
  | a :: as, h => by
    rw [List.dropWhile_cons] at h
    by_cases hp : p a = true
    · rw [if_pos hp] at h
      exact head?_dropWhile_not as h
    · rw [if_neg hp] at h
      simp only [List.head?_cons, Option.some_inj] at h
      rw [← h]
      simpa using hp

theorem dropWhile_fix {p : Nat → Bool} {l : Str}
    (h : ∀ c, l.head? = some c → p c = false) : l.dropWhile p = l := by
  cases l with
  | nil => rfl
  | cons a as =>
    rw [List.dropWhile_cons, if_neg]
    simp [h a rfl]

theorem noAdj_dropWhile {p : Nat → Bool} : ∀ l : Str, noAdj l = true → noAdj (l.dropWhile p) = true
  | [], _ => rfl
  | a :: as, h => by
    rw [List.dropWhile_cons]
    by_cases hp : p a = true
    · rw [if_pos hp]
      exact noAdj_dropWhile as (noAdj_cons h)
    · rw [if_neg hp]
      exact h

theorem mem_dropTrailingWs {c : Nat} : ∀ l : Str, c ∈ dropTrailingWs l → c ∈ l
  | [], h => by simp [dropTrailingWs] at h
  | a :: as, h => by
    unfold dropTrailingWs at h
    cases hr : dropTrailingWs as with
    | nil =>
      rw [hr] at h
      by_cases hs : isSpaceC a = true
      · rw [if_pos hs] at h
        simp at h
      · rw [if_neg hs] at h
        simp only [List.mem_singleton] at h
        exact h ▸ List.mem_cons_self a as
    | cons x xs =>
      rw [hr] at h
      rcases List.mem_cons.mp h with h2 | h2
      · exact h2 ▸ List.mem_cons_self a as
      · exact List.mem_cons_of_mem a (mem_dropTrailingWs as (hr ▸ h2))

theorem head?_dropTrailingWs {c : Nat} : ∀ l : Str, (dropTrailingWs l).head? = some c → l.head? = some c
  | [], h => by simp [dropTrailingWs] at h
  | a :: as, h => by
    unfold dropTrailingWs at h
    cases hr : dropTrailingWs as with
    | nil =>
      rw [hr] at h
      by_cases hs : isSpaceC a = true
      · rw [if_pos hs] at h
        simp at h
      · rw [if_neg hs] at h
        simpa using h
    | cons x xs =>
      rw [hr] at h
      simpa using h

theorem getLast?_dropTrailingWs {c : Nat} :
    ∀ l : Str, (dropTrailingWs l).getLast? = some c → isSpaceC c = false
  | [], h => by simp [dropTrailingWs] at h
  | a :: as, h => by
    unfold dropTrailingWs at h
    cases hr : dropTrailingWs as with
    | nil =>
      rw [hr] at h
      by_cases hs : isSpaceC a = true
      · rw [if_pos hs] at h
        simp at h
      · rw [if_neg hs] at h
        simp only [List.getLast?_singleton, Option.some_inj] at h
        rw [← h]
        simpa using hs
    | cons x xs =>
      rw [hr] at h
      rw [List.getLast?_cons_cons] at h
      exact getLast?_dropTrailingWs as (hr ▸ h)

theorem noAdj_dropTrailingWs : ∀ l : Str, noAdj l = true → noAdj (dropTrailingWs l) = true
  | [], _ => rfl
  | a :: as, h => by
    unfold dropTrailingWs
    cases hr : dropTrailingWs as with
    | nil =>
      by_cases hs : isSpaceC a = true
      · rw [if_pos hs]
        rfl
      · rw [if_neg hs]
        rfl
    | cons x xs =>
      have htail : noAdj (x :: xs) = true := hr ▸ noAdj_dropTrailingWs as (noAdj_cons h)
      by_cases hs : isSpaceC a = true
      · refine noAdj_cons_of (Or.inr fun d hd => ?_) htail
        have hx : as.head? = some d := head?_dropTrailingWs as (hr ▸ hd)
        cases as with
        | nil => simp at hx
        | cons b bs =>
          simp only [List.head?_cons, Option.some_inj] at hx
          subst hx
          unfold noAdj at h
          rcases Bool.and_eq_true_iff.mp h with ⟨h1, _⟩
          rcases Bool.and_eq_false_iff.mp (Bool.not_eq_true' .. |>.mp h1) with h2 | h2
          · exact absurd hs (by simp [h2])
          · exact h2
      · exact noAdj_cons_of (Or.inl (by simpa using hs)) htail

theorem dropTrailingWs_fix :
    ∀ l : Str, (∀ c, l.getLast? = some c → isSpaceC c = false) → dropTrailingWs l = l
  | [], _ => rfl
  | a :: as, h => by
    unfold dropTrailingWs
    cases as with
    | nil =>
      have := h a rfl
      simp [dropTrailingWs, this]
    | cons b bs =>
      have tail : dropTrailingWs (b :: bs) = b :: bs :=
        dropTrailingWs_fix (b :: bs) (fun c hc => h c (by rw [List.getLast?_cons_cons]; exact hc))
      rw [tail]

/-- The invariant holding of every `normalizeStr` output. -/
def GoodStr (l : Str) : Prop :=
  (∀ c ∈ l, goodC c = true) ∧ noAdj l = true ∧
    (∀ c, l.head? = some c → isSpaceC c = false) ∧
    (∀ c, l.getLast? = some c → isSpaceC c = false)

theorem goodStr_normalizeStr (s : Str) : GoodStr (normalizeStr s) := by
  unfold normalizeStr jsTrim
  set m := (s.map lowerC).map punctToSpace with hm
  refine ⟨?_, ?_, ?_, ?_⟩
  · intro c hc
    have hc1 := mem_dropTrailingWs _ hc
    have hc2 : c ∈ collapseWs false m := (List.dropWhile_sublist _).mem hc1
    by_cases hs : isSpaceC c = true
    · rw [collapseWs_space32 false m hc2 hs]
      simp [goodC]
    · rcases mem_collapseWs false m hc2 with h3 | h3
      · rw [hm, List.map_map] at h3
        rcases List.mem_map.mp h3 with ⟨a, _, ha⟩
        simp only [Function.comp_apply] at ha
        rcases pipe_goodC a with hg | hg
        · exact ha ▸ hg
        · exact absurd (ha ▸ hg) hs
      · rw [h3] at hs
        simp [isSpaceC] at hs
  · exact noAdj_dropTrailingWs _ (noAdj_dropWhile _ (noAdj_collapseWs false m))
  · intro c hc
    exact head?_dropWhile_not _ (head?_dropTrailingWs _ hc)
  · intro c hc
    exact getLast?_dropTrailingWs _ hc

theorem map_id_of {α : Type} {f : α → α} : ∀ l : List α, (∀ c ∈ l, f c = c) → l.map f = l
  | [], _ => rfl
  | a :: as, h => by
    rw [List.map_cons, h a (List.mem_cons_self a as),
      map_id_of as fun c hc => h c (List.mem_cons_of_mem a hc)]

theorem normalizeStr_fix {l : Str} (h : GoodStr l) : normalizeStr l = l := by
  rcases h with ⟨hchar, hadj, hhead, hlast⟩
  unfold normalizeStr jsTrim
  rw [map_id_of l fun c hc => goodC_lowerC (hchar c hc),
    map_id_of l fun c hc => goodC_punctToSpace (hchar c hc),
    collapseWs_fix false l (fun c hc hs => goodC_space32 (hchar c hc) hs) hadj (by intro h; cases h),
    dropWhile_fix hhead, dropTrailingWs_fix l hlast]

theorem normalizeStr_idem (s : Str) : normalizeStr (normalizeStr s) = normalizeStr s :=
  normalizeStr_fix (goodStr_normalizeStr s)

@[simp]
theorem normalizeText_str (s : Str) : normalizeText (.str s) = normalizeStr s := by
  cases s with
  | nil => rfl
  | cons a as => rfl

/-- A normalized trigger word occurring in a normalized transcript (as a
substring; whole-word occurrence is a special case). -/
def Present (w t : Str) : Prop :=
  normalizeStr w ≠ [] ∧ normalizeStr w <:+: normalizeStr t

instance (w t : Str) : Decidable (Present w t) := by
  unfold Present
  infer_instance

theorem containsWord_str (t w : Str) :
    containsWord (.str t) (.str w) = true ↔ Present w t := by
  unfold containsWord Present
  simp only [normalizeText_str]
  by_cases h : (normalizeStr w).isEmpty
  · rw [if_pos h]
    simp [List.isEmpty_iff.mp h]
  · rw [if_neg h]
    simp [List.isEmpty_iff] at h
    simp [h]

theorem analyzeResponse_str_eq (t s e : Str) :
    analyzeResponse (.str t) (.str s) (.str e) =
      if Present e t then resEscalate else if Present s t then resSafe else resUnknown := by
  unfold analyzeResponse
  simp only [normalizeText_str]
  have he : containsWord (.str (normalizeStr t)) (.str e) = true ↔ Present e t := by
    rw [containsWord_str]
    unfold Present
    rw [normalizeStr_idem]
  have hs : containsWord (.str (normalizeStr t)) (.str s) = true ↔ Present s t := by
    rw [containsWord_str]
    unfold Present
    rw [normalizeStr_idem]
  by_cases h1 : Present e t
  · rw [if_pos (he.mpr h1), if_pos h1]
  · rw [if_neg (by simpa [he] using h1), if_neg h1]
    by_cases h2 : Present s t
    · rw [if_pos (hs.mpr h2), if_pos h2]
    · rw [if_neg (by simpa [hs] using h2), if_neg h2]

theorem present_norm (w t : Str) : Present (normalizeStr w) (normalizeStr t) ↔ Present w t := by
  unfold Present
  rw [normalizeStr_idem, normalizeStr_idem]

theorem map_lowerC_lowerC : ∀ l : Str, (l.map lowerC).map lowerC = l.map lowerC
  | [] => rfl
  | a :: as => by
    simp only [List.map_cons]
    rw [lowerC_idem, map_lowerC_lowerC as]

theorem normalizeStr_map_lowerC (l : Str) : normalizeStr (l.map lowerC) = normalizeStr l := by
  unfold normalizeStr
  rw [map_lowerC_lowerC]

theorem present_lower (w t : Str) : Present (w.map lowerC) (t.map lowerC) ↔ Present w t := by
  unfold Present
  rw [normalizeStr_map_lowerC, normalizeStr_map_lowerC]

theorem normalizeStr_nil : normalizeStr [] = [] := rfl

theorem containsWord_empty_text (w : JsVal) : containsWord (.str []) w = false := by
  unfold containsWord
  by_cases h : (normalizeText w).isEmpty
  · rw [if_pos h]
  · rw [if_neg h]
    have hne : normalizeText w ≠ [] := by
      intro hnil
      exact h (by simp [hnil])
    simp only [normalizeText_str, normalizeStr_nil, decide_eq_false_iff_not]
    intro hinf
    exact hne (List.eq_nil_of_length_eq_zero (Nat.le_zero.mp (by simpa using hinf.length_le)))

theorem containsWord_empty_word {w : JsVal} (t : JsVal) (h : normalizeText w = []) :
    containsWord t w = false := by
  unfold containsWord
  rw [h]
  rfl

theorem analyzeResponse_eq_ite (t s e : JsVal) :
    analyzeResponse t s e =
      if containsWord (.str (normalizeText t)) e = true then resEscalate
      else if containsWord (.str (normalizeText t)) s = true then resSafe
      else resUnknown := rfl

/-- C4: `analyzeResponse` is insensitive to casing and punctuation of
transcript and trigger words: its result depends only on the three
normalized forms, and lowercasing every argument leaves the result
unchanged.  Whenever the normalized escalation word is present in the
normalized transcript (substring occurrence, which subsumes whole-word
occurrence) the result is `escalate`, even if the safe word is present too;
the result is `safe` when only the safe word is present; and `unknown` when
neither is present. -/
theorem C4_analyzeResponse_classification (t s e : Str) :
    (Present e t → analyzeResponse (.str t) (.str s) (.str e) = resEscalate) ∧
    (¬ Present e t → Present s t → analyzeResponse (.str t) (.str s) (.str e) = resSafe) ∧
    (¬ Present e t → ¬ Present s t → analyzeResponse (.str t) (.str s) (.str e) = resUnknown) ∧
    analyzeResponse (.str t) (.str s) (.str e) =
      analyzeResponse (.str (normalizeStr t)) (.str (normalizeStr s)) (.str (normalizeStr e)) ∧
    analyzeResponse (.str (t.map lowerC)) (.str (s.map lowerC)) (.str (e.map lowerC)) =
      analyzeResponse (.str t) (.str s) (.str e) := by
  have key := analyzeResponse_str_eq t s e
  refine ⟨?_, ?_, ?_, ?_, ?_⟩
  · intro h
    rw [key, if_pos h]
  · intro h1 h2
    rw [key, if_neg h1, if_pos h2]
  · intro h1 h2
    rw [key, if_neg h1, if_neg h2]
  · rw [key, analyzeResponse_str_eq]
    simp only [present_norm]
  · rw [key, analyzeResponse_str_eq]
    simp only [present_lower]

/-- Witness for C4 at the spec's own concrete examples. -/
theorem C4_analyzeResponse_classification_witness :
    analyzeResponse (.str (str ("banana pineapple"))) (.str (str ("pineapple"))) (.str (str ("banana"))) = resEscalate ∧
    analyzeResponse (.str (str ("I'm fine, PINEAPPLE!"))) (.str (str ("pineapple"))) (.str (str ("banana"))) = resSafe ∧
    analyzeResponse (.str (str ("I don't know"))) (.str (str ("pineapple"))) (.str (str ("banana"))) = resUnknown :=
  ⟨(C4_analyzeResponse_classification _ _ _).1 (by decide),
   (C4_analyzeResponse_classification _ _ _).2.1 (by decide) (by decide),
   (C4_analyzeResponse_classification _ _ _).2.2.1 (by decide) (by decide)⟩

/-- C10: `analyzeResponse` is total over arbitrary JS inputs: `null`,
`undefined`, non-string and empty transcripts normalize to the empty string
and yield `unknown`, and a trigger word that normalizes to the empty string
is never considered present, so a degenerate trigger word alone never
produces `escalate` or `safe`. -/
theorem C10_analyzeResponse_total :
    (normalizeText JsVal.nullv = [] ∧ normalizeText JsVal.undef = [] ∧
      normalizeText JsVal.other = [] ∧ normalizeText (JsVal.str []) = []) ∧
    (∀ t s e : JsVal, normalizeText t = [] → analyzeResponse t s e = resUnknown) ∧
    (∀ txt w : JsVal, normalizeText w = [] → containsWord txt w = false) ∧
    (∀ t s e : JsVal, normalizeText e = [] → analyzeResponse t s e ≠ resEscalate) ∧
    (∀ t s e : JsVal, normalizeText s = [] → analyzeResponse t s e ≠ resSafe) := by
  refine ⟨⟨rfl, rfl, rfl, rfl⟩, ?_, ?_, ?_, ?_⟩
  · intro t s e ht
    rw [analyzeResponse_eq_ite, ht, containsWord_empty_text, containsWord_empty_text,
      if_neg Bool.false_ne_true, if_neg Bool.false_ne_true]
  · intro txt w hw
    exact containsWord_empty_word txt hw
  · intro t s e he
    rw [analyzeResponse_eq_ite, containsWord_empty_word _ he, if_neg Bool.false_ne_true]
    by_cases h2 : containsWord (.str (normalizeText t)) s = true
    · rw [if_pos h2]
      decide
    · rw [if_neg h2]
      decide
  · intro t s e hs
    rw [analyzeResponse_eq_ite, containsWord_empty_word _ hs]
    by_cases h1 : containsWord (.str (normalizeText t)) e = true
    · rw [if_pos h1]
      decide
    · rw [if_neg h1, if_neg Bool.false_ne_true]
      decide

/-- Witness for C10: a `null` transcript and punctuation-only trigger words. -/
theorem C10_analyzeResponse_total_witness :
    analyzeResponse JsVal.nullv (.str (str ("pineapple"))) (.str (str ("banana"))) = resUnknown ∧
    containsWord (.str (str ("banana"))) (.str (str ("?!...")))  = false ∧
    analyzeResponse (.str (str ("banana"))) (.str (str ("banana"))) (.str (str ("?!..."))) ≠ resEscalate ∧
    analyzeResponse (.str (str ("banana"))) (.str (str ("!!!"))) (.str (str ("banana"))) ≠ resSafe :=
  ⟨C10_analyzeResponse_total.2.1 _ _ _ rfl,
   C10_analyzeResponse_total.2.2.1 _ _ (by decide),
   C10_analyzeResponse_total.2.2.2.1 _ _ _ (by decide),
   C10_analyzeResponse_total.2.2.2.2 _ _ _ (by decide)⟩

/-! ## Trace semantics: the per-session view of `run` -/

/-- Whether a step mutates the sessions table at all. -/
def mutatesSessions : Step → Bool
  | .setStatus _ _ => true
  | .setLocation _ _ => true
  | _ => false

/-- Whether a step mutates the session row with the given id. -/
def touchesSession (sid : Str) : Step → Bool
  | .setStatus sid' _ => sid' == sid
  | .setLocation sid' _ => sid' == sid
  | _ => false

theorem touches_of_mutates {sid : Str} {st : Step} (h : mutatesSessions st = false) :
    touchesSession sid st = false := by
  cases st <;> first
    | rfl
    | exact absurd h (by simp [mutatesSessions])

/-- The effect of one step on one session row. -/
def stepSession (now : Int) (s : Session) : Step → Session
  | .setStatus sid st => if s.id == sid then { s with status := st, updated_at := now } else s
  | .setLocation sid loc => if s.id == sid then { s with location := some loc, updated_at := now } else s
  | _ => s

def runSession (now : Int) (steps : List Step) (s : Session) : Session :=
  steps.foldl (stepSession now) s

/-- Events produced by a trace, in order. -/
def stepEvents (steps : List Step) : List Event :=
  steps.filterMap fun st =>
    match st with
    | .logE sid t p => some ⟨sid, t, p⟩
    | _ => none

theorem stepSession_id (now : Int) (s : Session) (st : Step) : (stepSession now s st).id = s.id := by
  cases st with
  | setStatus sid st =>
    simp only [stepSession]
    split <;> rfl
  | setLocation sid loc =>
    simp only [stepSession]
    split <;> rfl
  | _ => rfl

theorem runSession_id (now : Int) (s : Session) :
    ∀ steps : List Step, (runSession now steps s).id = s.id := by
  intro steps
  induction steps generalizing s with
  | nil => rfl
  | cons st rest ih =>
    unfold runSession
    rw [List.foldl_cons]
    exact (ih (stepSession now s st)).trans (stepSession_id now s st)

theorem runSession_append (now : Int) (a b : List Step) (s : Session) :
    runSession now (a ++ b) s = runSession now b (runSession now a s) := by
  unfold runSession
  rw [List.foldl_append]

theorem runSession_cons (now : Int) (x : Step) (steps : List Step) (s : Session) :
    runSession now (x :: steps) s = runSession now steps (stepSession now s x) := rfl

theorem runSession_untouched (now : Int) {s : Session} :
    ∀ steps : List Step, (∀ st ∈ steps, touchesSession s.id st = false) →
      runSession now steps s = s
  | [], _ => rfl
  | st :: rest, h => by
    unfold runSession
    rw [List.foldl_cons]
    have h1 : stepSession now s st = s := by
      cases st with
      | setStatus sid stt =>
        have ht := h _ (List.mem_cons_self ..)
        simp only [touchesSession] at ht
        simp only [stepSession]
        rw [if_neg]
        simp only [beq_iff_eq]
        intro hb
        rw [hb] at ht
        simp at ht
      | setLocation sid loc =>
        have ht := h _ (List.mem_cons_self ..)
        simp only [touchesSession] at ht
        simp only [stepSession]
        rw [if_neg]
        simp only [beq_iff_eq]
        intro hb
        rw [hb] at ht
        simp at ht
      | _ => rfl
    rw [h1]
    exact runSession_untouched now rest fun x hx => h x (List.mem_cons_of_mem st hx)

theorem run_append (now : Int) (a b : List Step) (db : DBState) :
    run now (a ++ b) db = run now b (run now a db) := by
  unfold run
  rw [List.foldl_append]

theorem run_sessions (now : Int) :
    ∀ (steps : List Step) (db : DBState),
      (run now steps db).sessions = db.sessions.map (fun s => runSession now steps s)
  | [], db => by
    unfold run runSession
    simp
  | st :: rest, db => by
    unfold run
    rw [List.foldl_cons]
    have ih := run_sessions now rest (applyStep now db st)
    unfold run at ih
    rw [ih]
    have hsess : (applyStep now db st).sessions = db.sessions.map (fun s => stepSession now s st) := by
      cases st with
      | setStatus sid stt => rfl
      | setLocation sid loc => rfl
      | logE sid t p => simp [applyStep, stepSession]
      | smsSend a b c => simp [applyStep, stepSession]
      | checkInCall a b c => simp [applyStep, stepSession]
      | emergencyCall a b c d => simp [applyStep, stepSession]
      | whisperCall a b => simp [applyStep, stepSession]
      | classifyCall a b => simp [applyStep, stepSession]
    rw [hsess, List.map_map]
    rfl

theorem run_contacts (now : Int) :
    ∀ (steps : List Step) (db : DBState), (run now steps db).contacts = db.contacts
  | [], _ => rfl
  | st :: rest, db => by
    unfold run
    rw [List.foldl_cons]
    have ih := run_contacts now rest (applyStep now db st)
    unfold run at ih
    rw [ih]
    cases st <;> rfl

theorem run_events (now : Int) :
    ∀ (steps : List Step) (db : DBState), (run now steps db).events = db.events ++ stepEvents steps
  | [], db => by simp [run, stepEvents]
  | st :: rest, db => by
    unfold run
    rw [List.foldl_cons]
    have ih := run_events now rest (applyStep now db st)
    unfold run at ih
    rw [ih]
    cases st with
    | logE sid t p => simp [applyStep, stepEvents]
    | _ => simp [applyStep, stepEvents]

theorem find?_id_map {F : Session → Session} (hF : ∀ s, (F s).id = s.id) (sid : Str) :
    ∀ l : List Session,
      (l.map F).find? (fun s => s.id == sid) = (l.find? (fun s => s.id == sid)).map F
  | [] => rfl
  | a :: as => by
    rw [List.map_cons, List.find?_cons, List.find?_cons, hF a]
    by_cases h : (a.id == sid) = true
    · rw [h]
      rfl
    · rw [Bool.not_eq_true] at h
      rw [h]
      exact find?_id_map hF sid as

/-- The central lemma: a session read after running a trace is the original
row transformed by the trace's per-session effect. -/
theorem getSession_run (now : Int) (steps : List Step) (db : DBState) (sid : Str) :
    getSession (run now steps db) sid = (getSession db sid).map (runSession now steps) := by
  unfold getSession
  rw [run_sessions]
  exact find?_id_map (fun s => runSession_id now s steps) sid db.sessions

theorem getSession_id {db : DBState} {sid : Str} {s : Session}
    (h : getSession db sid = some s) : s.id = sid := by
  unfold getSession at h
  have := List.find?_some h
  simpa using this

theorem run_sessions_no_mut (now : Int) (steps : List Step) (db : DBState)
    (h : ∀ st ∈ steps, mutatesSessions st = false) :
    (run now steps db).sessions = db.sessions := by
  rw [run_sessions]
  exact map_id_of db.sessions fun s _ =>
    runSession_untouched now steps fun st hst => touches_of_mutates (h st hst)

/-- A trace whose only mutation of session `sid` is one `setStatus` leaves
that session with the new status and `updated_at = now`. -/
theorem getSession_run_single_setStatus (now : Int) (db : DBState) (sid : Str) (session : Session)
    (st : Status) (pre post : List Step)
    (hs : getSession db sid = some session)
    (hpre : ∀ x ∈ pre, touchesSession sid x = false)
    (hpost : ∀ x ∈ post, touchesSession sid x = false) :
    getSession (run now (pre ++ Step.setStatus sid st :: post) db) sid =
      some { session with status := st, updated_at := now } := by
  have hid : session.id = sid := getSession_id hs
  rw [getSession_run, hs, Option.map_some']
  have h1 : runSession now pre session = session :=
    runSession_untouched now pre fun x hx => hid ▸ hpre x hx
  have h2 : stepSession now session (Step.setStatus sid st) =
      { session with status := st, updated_at := now } := by
    simp only [stepSession]
    rw [if_pos]
    rw [hid]
    exact beq_self_eq_true sid
  have h3 : runSession now post { session with status := st, updated_at := now } =
      { session with status := st, updated_at := now } :=
    @runSession_untouched now { session with status := st, updated_at := now } post
      fun x hx => hid ▸ hpost x hx
  rw [runSession_append, h1, runSession_cons, h2, h3]

/-! ## Structure of the Escalation Ladder trace -/

theorem flatMap_no_mut {α : Type} {f : α → List Step} {l : List α}
    (h : ∀ a ∈ l, ∀ x ∈ f a, mutatesSessions x = false) :
    ∀ x ∈ l.flatMap f, mutatesSessions x = false := by
  intro x hx
  rcases List.mem_flatMap.mp hx with ⟨a, ha, hfa⟩
  exact h a ha x hfa

theorem escUserSmsBlock_no_mut (w : World) (sid : Str) (session : Session) :
    ∀ x ∈ escUserSmsBlock w sid session, mutatesSessions x = false := by
  intro x hx
  simp only [escUserSmsBlock] at hx
  rcases List.mem_cons.mp hx with h | h
  · subst h
    rfl
  · cases hsms : w.sms session.user_phone (userLocationSMSBody w.baseUrl sid) <;>
      rw [hsms] at h <;> simp only [List.mem_singleton] at h <;> subst h <;> rfl

theorem escContactBlock_no_mut (w : World) (sid : Str) (smsBody : Str) (c : Contact) :
    ∀ x ∈ escContactBlock w sid smsBody c, mutatesSessions x = false := by
  intro x hx
  simp only [escContactBlock] at hx
  rcases List.mem_cons.mp hx with h | h
  · subst h
    rfl
  · cases hsms : w.sms c.phone_number smsBody <;>
      rw [hsms] at h <;> simp only [List.mem_singleton] at h <;> subst h <;> rfl

theorem locContactBlock_no_mut (w : World) (sid : Str) (locationStr userPhone : Str) (c : Contact) :
    ∀ x ∈ locContactBlock w sid locationStr userPhone c, mutatesSessions x = false := by
  intro x hx
  simp only [locContactBlock] at hx
  rcases List.mem_cons.mp hx with h | h
  · subst h
    rfl
  · cases hsms : w.sms c.phone_number (locationUpdateSmsBody userPhone locationStr) <;>
      rw [hsms] at h <;> simp only [List.mem_singleton] at h <;> subst h <;> rfl

theorem escPrimaryResultLog_no_mut (w : World) (sid : Str) (session : Session) (p : Contact) :
    ∀ x ∈ escPrimaryResultLog w sid session p, mutatesSessions x = false := by
  intro x hx
  simp only [escPrimaryResultLog] at hx
  cases hc : w.emergencyCall p.phone_number sid session.user_phone <;>
    rw [hc] at hx <;> simp only [List.mem_singleton] at hx <;> subst hx <;> rfl

theorem escPrimaryBlock_no_mut (w : World) (sid : Str) (session : Session) (db : DBState) :
    ∀ x ∈ escPrimaryBlock w sid session db, mutatesSessions x = false := by
  intro x hx
  simp only [escPrimaryBlock] at hx
  cases hp : getPrimaryContact db sid with
  | none =>
    rw [hp] at hx
    simp at hx
  | some p =>
    rw [hp] at hx
    rcases List.mem_cons.mp hx with h | h
    · subst h
      rfl
    · exact escPrimaryResultLog_no_mut w sid session p x h

theorem escalationTail_no_mut (w : World) (sid : Str) (db : DBState) (session : Session) :
    ∀ x ∈ escalationTail w sid db session, mutatesSessions x = false := by
  intro x hx
  simp only [escalationTail] at hx
  rcases List.mem_cons.mp hx with h | h
  · subst h
    rfl
  · rcases List.mem_append.mp h with h | h
    · rcases List.mem_append.mp h with h | h
      · exact escUserSmsBlock_no_mut w sid session x h
      · exact flatMap_no_mut (fun c _ => escContactBlock_no_mut w sid _ c) x h
    · exact escPrimaryBlock_no_mut w sid session db x h

/-- Escalating an existing session inside a larger trace whose other steps do
not touch it sets status `escalated` with `updated_at = now`. -/
theorem getSession_run_escalation (now : Int) (w : World) (db : DBState) (sid : Str)
    (session : Session) (pre : List Step)
    (hs : getSession db sid = some session)
    (hpre : ∀ x ∈ pre, touchesSession sid x = false) :
    getSession (run now (pre ++ triggerEscalationSteps w sid db) db) sid =
      some { session with status := Status.escalated, updated_at := now } := by
  simp only [triggerEscalationSteps, hs]
  exact getSession_run_single_setStatus now db sid session Status.escalated pre _ hs hpre
    fun x hx => touches_of_mutates (escalationTail_no_mut w sid db session x hx)

theorem stepEvents_mem {steps : List Step} {sid : Option Str} {etype : Str} {p : Option Payload}
    (h : Step.logE sid etype p ∈ steps) : Event.mk sid etype p ∈ stepEvents steps := by
  unfold stepEvents
  exact List.mem_filterMap.mpr ⟨_, h, rfl⟩

theorem mem_events_run {now : Int} {steps : List Step} {db : DBState} {sid : Option Str}
    {etype : Str} {p : Option Payload} (h : Step.logE sid etype p ∈ steps) :
    Event.mk sid etype p ∈ (run now steps db).events := by
  rw [run_events]
  exact List.mem_append_right _ (stepEvents_mem h)

/-- C8: `triggerEscalation` for an existing session sets status `escalated`
as its very first action, before any notification; every contact's Level-1
SMS is attempted and its success or failure logged under that contact's own
address regardless of any other send's outcome; and the Level-2 voice call
to the primary contact is attempted regardless of the SMS outcomes. -/
theorem C8_escalation_isolation (w : World) (db : DBState) (sid : Str) (session : Session)
    (now : Int) (hs : getSession db sid = some session) :
    (triggerEscalationSteps w sid db).head? = some (Step.setStatus sid Status.escalated) ∧
    getSession (run now (triggerEscalationSteps w sid db) db) sid =
      some { session with status := Status.escalated, updated_at := now } ∧
    (∀ c ∈ getEmergencyContacts db sid,
      Step.smsSend c.phone_number (distressSmsBody session.user_phone (locationOrNull session.location))
          (w.sms c.phone_number (distressSmsBody session.user_phone (locationOrNull session.location)))
        ∈ triggerEscalationSteps w sid db ∧
      (∀ v, w.sms c.phone_number (distressSmsBody session.user_phone (locationOrNull session.location)) = .ok v →
        Event.mk (some sid) evSmsSent
            (some [(kTo, .s c.phone_number), (kIsPrimary, .b (c.is_primary == 1))])
          ∈ (run now (triggerEscalationSteps w sid db) db).events) ∧
      (∀ e, w.sms c.phone_number (distressSmsBody session.user_phone (locationOrNull session.location)) = .error e →
        Event.mk (some sid) evSmsFailed
            (some [(kTo, .s c.phone_number), (kError, .s e)])
          ∈ (run now (triggerEscalationSteps w sid db) db).events)) ∧
    (∀ p, getPrimaryContact db sid = some p →
      Step.emergencyCall p.phone_number sid session.user_phone
          (w.emergencyCall p.phone_number sid session.user_phone)
        ∈ triggerEscalationSteps w sid db) := by
  have hsteps : triggerEscalationSteps w sid db =
      Step.setStatus sid Status.escalated :: escalationTail w sid db session := by
    simp only [triggerEscalationSteps, hs]
  have htail : ∀ x ∈ escalationTail w sid db session, x ∈ triggerEscalationSteps w sid db := by
    intro x hx
    rw [hsteps]
    exact List.mem_cons_of_mem _ hx
  have hmidF : ∀ x, x ∈ (getEmergencyContacts db sid).flatMap
      (escContactBlock w sid (distressSmsBody session.user_phone (locationOrNull session.location))) →
      x ∈ escalationTail w sid db session := by
    intro x hx
    simp only [escalationTail]
    exact List.mem_cons_of_mem _
      (List.mem_append_left _ (List.mem_append_right _ hx))
  refine ⟨by rw [hsteps]; rfl, ?_, ?_, ?_⟩
  · have := getSession_run_escalation now w db sid session [] hs (by intro x hx; simp at hx)
    simpa using this
  · intro c hc
    refine ⟨?_, ?_, ?_⟩
    · refine htail _ (hmidF _ (List.mem_flatMap.mpr ⟨c, hc, ?_⟩))
      simp only [escContactBlock]
      exact List.mem_cons_self ..
    · intro v hv
      refine mem_events_run (htail _ (hmidF _ (List.mem_flatMap.mpr ⟨c, hc, ?_⟩)))
      simp only [escContactBlock, hv]
      exact List.mem_cons_of_mem _ (List.mem_singleton.mpr rfl)
    · intro e he
      refine mem_events_run (htail _ (hmidF _ (List.mem_flatMap.mpr ⟨c, hc, ?_⟩)))
      simp only [escContactBlock, he]
      exact List.mem_cons_of_mem _ (List.mem_singleton.mpr rfl)
  · intro p hp
    refine htail _ ?_
    simp only [escalationTail]
    refine List.mem_cons_of_mem _ (List.mem_append_right _ ?_)
    simp only [escPrimaryBlock, hp]
    exact List.mem_cons_self ..

def exContactA : Contact := ⟨exSid, str ("+15550000001"), 1, 0⟩

def exContactB : Contact := ⟨exSid, str ("+15550000002"), 0, 1⟩

def exEscDb : DBState where
  sessions := [exSession]
  contacts := [exContactA, exContactB]
  events := []

/-- A world where sending to contact A fails and everything else succeeds. -/
def exFailWorld : World :=
  { exWorld with sms := fun ph _ =>
      if ph == str ("+15550000001") then .error (str ("boom")) else .ok (str ("SM1")) }

/-- Witness for C8: contact A's send fails, contact B's succeeds, both are
logged, and the primary-contact voice call still fires. -/
theorem C8_escalation_isolation_witness :
    (triggerEscalationSteps exFailWorld exSid exEscDb).head? =
      some (Step.setStatus exSid Status.escalated) ∧
    Event.mk (some exSid) evSmsFailed
        (some [(kTo, .s exContactA.phone_number), (kError, .s (str ("boom")))])
      ∈ (run 0 (triggerEscalationSteps exFailWorld exSid exEscDb) exEscDb).events ∧
    Event.mk (some exSid) evSmsSent
        (some [(kTo, .s exContactB.phone_number), (kIsPrimary, .b (exContactB.is_primary == 1))])
      ∈ (run 0 (triggerEscalationSteps exFailWorld exSid exEscDb) exEscDb).events ∧
    Step.emergencyCall exContactA.phone_number exSid exSession.user_phone
        (exFailWorld.emergencyCall exContactA.phone_number exSid exSession.user_phone)
      ∈ triggerEscalationSteps exFailWorld exSid exEscDb := by
  have T := C8_escalation_isolation exFailWorld exEscDb exSid exSession 0 (by decide)
  exact ⟨T.1,
    (T.2.2.1 exContactA (by decide)).2.2 (str ("boom")) (by decide),
    (T.2.2.1 exContactB (by decide)).2.1 (str ("SM1")) (by decide),
    T.2.2.2 exContactA (by decide)⟩

/-! ## Structure of the recording-complete trace (C1, C2, C5) -/

theorem recordingSidBlock_no_mut (sid : Str) (body : RecordingBody) :
    ∀ x ∈ recordingSidBlock sid body, mutatesSessions x = false := by
  intro x hx
  simp only [recordingSidBlock] at hx
  cases hrs : body.recordingSid with
  | none =>
    rw [hrs] at hx
    simp at hx
  | some rsid =>
    rw [hrs] at hx
    simp only [List.mem_singleton] at hx
    subst hx
    rfl

theorem whisperSteps_no_mut (w : World) (sid : Str) (body : RecordingBody) :
    ∀ x ∈ whisperSteps w sid body, mutatesSessions x = false := by
  intro x hx
  simp only [whisperSteps] at hx
  by_cases he : body.transcriptionText.isEmpty
  · rw [if_pos he] at hx
    cases hu : body.recordingUrl with
    | none =>
      rw [hu] at hx
      simp at hx
    | some url =>
      rw [hu] at hx
      rcases List.mem_cons.mp hx with h | h
      · subst h
        rfl
      · cases htr : w.transcribe url <;>
          rw [htr] at h <;> simp only [List.mem_singleton] at h <;> subst h <;> rfl
  · rw [if_neg he] at hx
    simp at hx

/-- Trace of the recording-complete handler when no transcript is obtainable
at all. -/
theorem recordingCompleteSteps_no_transcript_eq (w : World) (db : DBState) (sid : Str)
    (session : Session) (body : RecordingBody)
    (hs : getSession db sid = some session)
    (hempty : resolvedTranscript w body = []) :
    recordingCompleteSteps w (some sid) body db =
      recordingSidBlock sid body ++ whisperSteps w sid body ++
        [Step.logE (some sid) evNoTranscriptionAvailable (some [])] := by
  simp only [recordingCompleteSteps, hs, hempty]
  simp

/-- C1 (amended): when a recording-complete callback arrives for an active
session and no transcript is obtainable at all (no provider text, and the
Whisper fallback fails or yields nothing), the handler appends a
`no_transcription_available` event and performs no status transition: the
session row — its `active` status included — is left exactly as it was. -/
theorem C1_no_transcript_keeps_active (w : World) (db : DBState) (sid : Str)
    (session : Session) (body : RecordingBody) (now : Int)
    (hs : getSession db sid = some session)
    (hactive : session.status = Status.active)
    (hempty : resolvedTranscript w body = []) :
    getSession (run now (recordingCompleteSteps w (some sid) body db) db) sid = some session ∧
    (getSession (run now (recordingCompleteSteps w (some sid) body db) db) sid).map Session.status
      = some Status.active ∧
    (run now (recordingCompleteSteps w (some sid) body db) db).sessions = db.sessions ∧
    Event.mk (some sid) evNoTranscriptionAvailable (some [])
      ∈ (run now (recordingCompleteSteps w (some sid) body db) db).events := by
  have heq := recordingCompleteSteps_no_transcript_eq w db sid session body hs hempty
  have hnm : ∀ x ∈ recordingCompleteSteps w (some sid) body db, mutatesSessions x = false := by
    rw [heq]
    intro x hx
    rcases List.mem_append.mp hx with h | h
    · rcases List.mem_append.mp h with h | h
      · exact recordingSidBlock_no_mut sid body x h
      · exact whisperSteps_no_mut w sid body x h
    · simp only [List.mem_singleton] at h
      subst h
      rfl
  have h1 : getSession (run now (recordingCompleteSteps w (some sid) body db) db) sid = some session := by
    rw [getSession_run, hs, Option.map_some']
    rw [runSession_untouched now _ fun x hx => touches_of_mutates (hnm x hx)]
  refine ⟨h1, by rw [h1, Option.map_some', hactive], run_sessions_no_mut now _ db hnm, ?_⟩
  refine mem_events_run ?_
  rw [heq]
  exact List.mem_append_right _ (List.mem_singleton.mpr rfl)

/-- Witness for C1's amended theorem at the concrete no-transcript scenario. -/
theorem C1_no_transcript_keeps_active_witness :
    getSession (run 0 (recordingCompleteSteps exWorld (some exSid) exEmptyBody exDb) exDb) exSid
      = some exSession ∧
    (getSession (run 0 (recordingCompleteSteps exWorld (some exSid) exEmptyBody exDb) exDb) exSid).map Session.status
      = some Status.active ∧
    (run 0 (recordingCompleteSteps exWorld (some exSid) exEmptyBody exDb) exDb).sessions = exDb.sessions ∧
    Event.mk (some exSid) evNoTranscriptionAvailable (some [])
      ∈ (run 0 (recordingCompleteSteps exWorld (some exSid) exEmptyBody exDb) exDb).events :=
  C1_no_transcript_keeps_active exWorld exDb exSid exSession exEmptyBody 0
    (by decide) (by decide) (by decide)

/-- Counterexample to C1 as stated: at this concrete input the session stays
`active` (it does not transition to `completed`), and the single appended
event is named `no_transcription_available`, not `no_transcript_available`. -/
theorem C1_counterexample :
    (getSession (run 0 (recordingCompleteSteps exWorld (some exSid) exEmptyBody exDb) exDb) exSid).map Session.status
      ≠ some Status.completed ∧
    (run 0 (recordingCompleteSteps exWorld (some exSid) exEmptyBody exDb) exDb).events.map Event.event_type
      = [evNoTranscriptionAvailable] ∧
    evNoTranscriptionAvailable ≠ str ("no_transcript_available") := by decide

/-- Trace of the recording-complete handler when the transcript contains the
escalation word. -/
theorem recordingCompleteSteps_escalate_eq (w : World) (db : DBState) (sid : Str)
    (session : Session) (body : RecordingBody)
    (hs : getSession db sid = some session)
    (ht : (resolvedTranscript w body).isEmpty = false)
    (hres : analyzeResponse (.str (resolvedTranscript w body)) (.str session.safe_word)
      (.str session.escalation_word) = resEscalate) :
    recordingCompleteSteps w (some sid) body db =
      (recordingSidBlock sid body ++ whisperSteps w sid body ++
        [Step.logE (some sid) evTranscriptionReceived
          (some [(kText, .s (resolvedTranscript w body)), (kStatus, optPV body.transcriptionStatus)]),
         Step.logE (some sid) evEscalationWordDetected
          (some [(kTranscriptionText, .s (resolvedTranscript w body))])]) ++
      triggerEscalationSteps w sid db := by
  simp only [recordingCompleteSteps, hs, ht, hres]
  simp [List.append_assoc]

/-- C2 (amended): the recording-complete and transcription callbacks are
no-ops only when the session id is missing or unknown; an existing session
is processed regardless of its status.  In particular a session already in
the terminal `completed` state is re-escalated by a recording-complete
callback whose transcript contains the escalation word — terminal statuses
are not protected. -/
theorem C2_noop_only_for_unknown_session :
    (∀ (w : World) (body : RecordingBody) (db : DBState),
      recordingCompleteSteps w none body db = []) ∧
    (∀ (w : World) (tr : Str) (ts : Option Str) (db : DBState),
      transcriptionSteps w none tr ts db = []) ∧
    (∀ (w : World) (body : RecordingBody) (db : DBState) (sid : Str),
      getSession db sid = none → recordingCompleteSteps w (some sid) body db = []) ∧
    (∀ (w : World) (tr : Str) (ts : Option Str) (db : DBState) (sid : Str),
      getSession db sid = none → transcriptionSteps w (some sid) tr ts db = []) ∧
    (∀ (w : World) (db : DBState) (sid : Str) (session : Session) (body : RecordingBody) (now : Int),
      getSession db sid = some session → session.status = Status.completed →
      (resolvedTranscript w body).isEmpty = false →
      analyzeResponse (.str (resolvedTranscript w body)) (.str session.safe_word)
        (.str session.escalation_word) = resEscalate →
      (getSession (run now (recordingCompleteSteps w (some sid) body db) db) sid).map Session.status
        = some Status.escalated) := by
  refine ⟨fun _ _ _ => rfl, fun _ _ _ _ => rfl, ?_, ?_, ?_⟩
  · intro w body db sid h
    simp [recordingCompleteSteps, h]
  · intro w tr ts db sid h
    simp [transcriptionSteps, h]
  · intro w db sid session body now hs hcompl ht hres
    rw [recordingCompleteSteps_escalate_eq w db sid session body hs ht hres]
    have hpre : ∀ x ∈ recordingSidBlock sid body ++ whisperSteps w sid body ++
        [Step.logE (some sid) evTranscriptionReceived
          (some [(kText, .s (resolvedTranscript w body)), (kStatus, optPV body.transcriptionStatus)]),
         Step.logE (some sid) evEscalationWordDetected
          (some [(kTranscriptionText, .s (resolvedTranscript w body))])],
        touchesSession sid x = false := by
      intro x hx
      refine touches_of_mutates ?_
      rcases List.mem_append.mp hx with h | h
      · rcases List.mem_append.mp h with h | h
        · exact recordingSidBlock_no_mut sid body x h
        · exact whisperSteps_no_mut w sid body x h
      · rcases List.mem_cons.mp h with h | h
        · subst h
          rfl
        · simp only [List.mem_singleton] at h
          subst h
          rfl
    rw [getSession_run_escalation now w db sid session _ hs hpre]
    rfl

/-- Witness for C2's amended theorem: the no-op case on an unknown session
id, and the terminal-state mutation at the concrete completed session. -/
theorem C2_noop_only_for_unknown_session_witness :
    recordingCompleteSteps exWorld (some (str ("nosuch"))) exBananaBody exDb = [] ∧
    (getSession (run 0 (recordingCompleteSteps exWorld (some exSid) exBananaBody exCompletedDb) exCompletedDb) exSid).map Session.status
      = some Status.escalated :=
  ⟨C2_noop_only_for_unknown_session.2.2.1 exWorld exBananaBody exDb (str ("nosuch")) (by decide),
   C2_noop_only_for_unknown_session.2.2.2.2 exWorld exCompletedDb exSid
     { exSession with status := Status.completed } exBananaBody 0
     (by decide) rfl (by decide) (by decide)⟩

/-- Counterexample to C2 as stated: a session in terminal status `completed`
receives a recording-complete callback whose transcript contains the
escalation word; the callback is not a no-op and the status is mutated to
`escalated` (the escalation ladder runs). -/
theorem C2_counterexample :
    (getSession exCompletedDb exSid).map Session.status = some Status.completed ∧
    (getSession (run 0 (recordingCompleteSteps exWorld (some exSid) exBananaBody exCompletedDb) exCompletedDb) exSid).map Session.status
      = some Status.escalated ∧
    recordingCompleteSteps exWorld (some exSid) exBananaBody exCompletedDb ≠ [] := by decide

theorem resUnknown_beq_escalate : (resUnknown == resEscalate) = false := by decide

theorem resUnknown_beq_safe : (resUnknown == resSafe) = false := by decide

/-- Trace of the recording-complete handler on an inconclusive transcript
that the classifier scores as distressed. -/
theorem recordingCompleteSteps_unknown_distressed_eq (w : World) (db : DBState) (sid : Str)
    (session : Session) (body : RecordingBody)
    (hs : getSession db sid = some session)
    (ht : (resolvedTranscript w body).isEmpty = false)
    (hunk : analyzeResponse (.str (resolvedTranscript w body)) (.str session.safe_word)
      (.str session.escalation_word) = resUnknown)
    (hd : (classifyDistressIntent w (resolvedTranscript w body)).isDistressed = true) :
    recordingCompleteSteps w (some sid) body db =
      (recordingSidBlock sid body ++ whisperSteps w sid body ++
        [Step.logE (some sid) evTranscriptionReceived
          (some [(kText, .s (resolvedTranscript w body)), (kStatus, optPV body.transcriptionStatus)]),
         Step.classifyCall (resolvedTranscript w body) (classifyDistressIntent w (resolvedTranscript w body)),
         Step.logE (some sid) evOpenaiClassification
          (some [(kTranscriptionText, .s (resolvedTranscript w body)),
                 (kScore, .q (classifyDistressIntent w (resolvedTranscript w body)).score),
                 (kReason, .s (classifyDistressIntent w (resolvedTranscript w body)).reason),
                 (kIsDistressed, .b (classifyDistressIntent w (resolvedTranscript w body)).isDistressed)]),
         Step.logE (some sid) evAiDistressDetected
          (some [(kScore, .q (classifyDistressIntent w (resolvedTranscript w body)).score),
                 (kReason, .s (classifyDistressIntent w (resolvedTranscript w body)).reason)])]) ++
      triggerEscalationSteps w sid db := by
  simp only [recordingCompleteSteps, hs, ht, hunk, resUnknown_beq_escalate, resUnknown_beq_safe,
    classificationSteps, hd]
  simp [List.append_assoc]

/-- Trace of the recording-complete handler on an inconclusive transcript
that the classifier does not score as distressed. -/
theorem recordingCompleteSteps_unknown_calm_eq (w : World) (db : DBState) (sid : Str)
    (session : Session) (body : RecordingBody)
    (hs : getSession db sid = some session)
    (ht : (resolvedTranscript w body).isEmpty = false)
    (hunk : analyzeResponse (.str (resolvedTranscript w body)) (.str session.safe_word)
      (.str session.escalation_word) = resUnknown)
    (hd : (classifyDistressIntent w (resolvedTranscript w body)).isDistressed = false) :
    recordingCompleteSteps w (some sid) body db =
      (recordingSidBlock sid body ++ whisperSteps w sid body ++
        [Step.logE (some sid) evTranscriptionReceived
          (some [(kText, .s (resolvedTranscript w body)), (kStatus, optPV body.transcriptionStatus)]),
         Step.classifyCall (resolvedTranscript w body) (classifyDistressIntent w (resolvedTranscript w body)),
         Step.logE (some sid) evOpenaiClassification
          (some [(kTranscriptionText, .s (resolvedTranscript w body)),
                 (kScore, .q (classifyDistressIntent w (resolvedTranscript w body)).score),
                 (kReason, .s (classifyDistressIntent w (resolvedTranscript w body)).reason),
                 (kIsDistressed, .b (classifyDistressIntent w (resolvedTranscript w body)).isDistressed)])]) ++
      [Step.setStatus sid Status.completed] := by
  simp only [recordingCompleteSteps, hs, ht, hunk, resUnknown_beq_escalate, resUnknown_beq_safe,
    classificationSteps, hd]
  simp [List.append_assoc]

theorem unknown_prefix_no_mut (w : World) (sid : Str) (body : RecordingBody) (rest : List Step)
    (hrest : ∀ x ∈ rest, mutatesSessions x = false) :
    ∀ x ∈ recordingSidBlock sid body ++ whisperSteps w sid body ++ rest,
      mutatesSessions x = false := by
  intro x hx
  rcases List.mem_append.mp hx with h | h
  · rcases List.mem_append.mp h with h | h
    · exact recordingSidBlock_no_mut sid body x h
    · exact whisperSteps_no_mut w sid body x h
  · exact hrest x h

/-- C5: for an active session whose transcript the keyword analyzer finds
inconclusive, the handler escalates exactly when `classifyDistressIntent`
reports distress, completes otherwise, and distress is reported exactly when
the classifier call succeeds on a non-blank transcript with a score of at
least `DISTRESS_THRESHOLD = 7/10`; an erroring or unavailable classifier
yields completion. -/
theorem C5_unknown_classifier_threshold (w : World) (db : DBState) (sid : Str)
    (session : Session) (body : RecordingBody) (now : Int)
    (hs : getSession db sid = some session)
    (hactive : session.status = Status.active)
    (ht : (resolvedTranscript w body).isEmpty = false)
    (hunk : analyzeResponse (.str (resolvedTranscript w body)) (.str session.safe_word)
      (.str session.escalation_word) = resUnknown) :
    ((classifyDistressIntent w (resolvedTranscript w body)).isDistressed = true →
      getSession (run now (recordingCompleteSteps w (some sid) body db) db) sid =
        some { session with status := Status.escalated, updated_at := now }) ∧
    ((classifyDistressIntent w (resolvedTranscript w body)).isDistressed = false →
      getSession (run now (recordingCompleteSteps w (some sid) body db) db) sid =
        some { session with status := Status.completed, updated_at := now }) ∧
    ((classifyDistressIntent w (resolvedTranscript w body)).isDistressed = true ↔
      (jsTrim (resolvedTranscript w body)).isEmpty = false ∧
      ∃ score reason, w.classify (resolvedTranscript w body) = .ok score reason ∧
        DISTRESS_THRESHOLD ≤ score) := by
  refine ⟨?_, ?_, ?_⟩
  · intro hd
    rw [recordingCompleteSteps_unknown_distressed_eq w db sid session body hs ht hunk hd]
    refine getSession_run_escalation now w db sid session _ hs ?_
    intro x hx
    exact touches_of_mutates (unknown_prefix_no_mut w sid body _ (by
      intro y hy
      simp only [List.mem_cons, List.not_mem_nil, or_false] at hy
      rcases hy with rfl | rfl | rfl | rfl <;> rfl) x hx)
  · intro hd
    rw [recordingCompleteSteps_unknown_calm_eq w db sid session body hs ht hunk hd]
    refine getSession_run_single_setStatus now db sid session Status.completed _ [] hs ?_ ?_
    · intro x hx
      exact touches_of_mutates (unknown_prefix_no_mut w sid body _ (by
        intro y hy
        simp only [List.mem_cons, List.not_mem_nil, or_false] at hy
        rcases hy with rfl | rfl | rfl <;> rfl) x hx)
    · intro x hx
      simp at hx
  · unfold classifyDistressIntent
    rw [ht]
    by_cases hj : (jsTrim (resolvedTranscript w body)).isEmpty
    · rw [hj]
      simp
    · rw [Bool.not_eq_true] at hj
      rw [hj]
      simp only [Bool.or_self, Bool.false_eq_true, if_false]
      cases hcl : w.classify (resolvedTranscript w body) with
      | ok score reason =>
        simp [hcl, decide_eq_true_eq]
      | noContent =>
        simp [hcl]
      | error m =>
        simp [hcl]

def exUnknownBody : RecordingBody where
  transcriptionText := str ("I do not know")
  recordingSid := none
  recordingUrl := none
  recordingDuration := none
  transcriptionStatus := none

def exHighWorld : World :=
  { exWorld with classify := fun _ => .ok (71/100) (str ("worried")) }

def exLowWorld : World :=
  { exWorld with classify := fun _ => .ok (69/100) (str ("calm")) }

theorem exHigh_distressed :
    (classifyDistressIntent exHighWorld (resolvedTranscript exHighWorld exUnknownBody)).isDistressed
      = true := by
  have hT : resolvedTranscript exHighWorld exUnknownBody = str ("I do not know") := rfl
  rw [hT]
  unfold classifyDistressIntent
  rw [if_neg (by decide)]
  show decide (DISTRESS_THRESHOLD ≤ 71/100) = true
  rw [decide_eq_true_eq]
  unfold DISTRESS_THRESHOLD
  norm_num

theorem exLow_calm :
    (classifyDistressIntent exLowWorld (resolvedTranscript exLowWorld exUnknownBody)).isDistressed
      = false := by
  have hT : resolvedTranscript exLowWorld exUnknownBody = str ("I do not know") := rfl
  rw [hT]
  unfold classifyDistressIntent
  rw [if_neg (by decide)]
  show decide (DISTRESS_THRESHOLD ≤ 69/100) = false
  rw [decide_eq_false_iff_not]
  unfold DISTRESS_THRESHOLD
  norm_num

theorem emergencyCallPhones_append (a b : List Step) :
    emergencyCallPhones (a ++ b) = emergencyCallPhones a ++ emergencyCallPhones b := by
  unfold emergencyCallPhones
  rw [List.filterMap_append]

theorem emergencyCallPhones_escUserSmsBlock (w : World) (sid : Str) (session : Session) :
    emergencyCallPhones (escUserSmsBlock w sid session) = [] := by
  simp only [escUserSmsBlock]
  cases w.sms session.user_phone (userLocationSMSBody w.baseUrl sid) <;> rfl

theorem emergencyCallPhones_escContactBlock (w : World) (sid : Str) (b : Str) (c : Contact) :
    emergencyCallPhones (escContactBlock w sid b c) = [] := by
  simp only [escContactBlock]
  cases w.sms c.phone_number b <;> rfl

theorem emergencyCallPhones_flatMap_esc (w : World) (sid : Str) (b : Str) :
    ∀ cs : List Contact, emergencyCallPhones (cs.flatMap (escContactBlock w sid b)) = []
  | [] => rfl
  | c :: cs => by
    rw [List.flatMap_cons, emergencyCallPhones_append,
      emergencyCallPhones_escContactBlock, emergencyCallPhones_flatMap_esc w sid b cs]
    rfl

theorem emergencyCallPhones_escPrimaryBlock (w : World) (sid : Str) (session : Session)
    (db : DBState) :
    emergencyCallPhones (escPrimaryBlock w sid session db) =
      match getPrimaryContact db sid with
      | some p => [p.phone_number]
      | none => [] := by
  simp only [escPrimaryBlock]
  cases hp : getPrimaryContact db sid with
  | none => rfl
  | some p =>
    have hlog : emergencyCallPhones (escPrimaryResultLog w sid session p) = [] := by
      unfold escPrimaryResultLog
      cases hc : w.emergencyCall p.phone_number sid session.user_phone <;> rfl
    show p.phone_number :: emergencyCallPhones (escPrimaryResultLog w sid session p)
      = [p.phone_number]
    rw [hlog]

/-- The Ladder places exactly the Level-2 calls that `getPrimaryContact`
designates: one when a primary exists, none otherwise. -/
theorem emergencyCallPhones_escalation (w : World) (sid : Str) (db : DBState) (session : Session)
    (hs : getSession db sid = some session) :
    emergencyCallPhones (triggerEscalationSteps w sid db) =
      match getPrimaryContact db sid with
      | some p => [p.phone_number]
      | none => [] := by
  simp only [triggerEscalationSteps, hs, escalationTail]
  have h1 : ∀ r : List Step, emergencyCallPhones (Step.setStatus sid Status.escalated :: r)
      = emergencyCallPhones r := fun _ => rfl
  have h2 : ∀ (sidq : Option Str) (et : Str) (pl : Option Payload) (r : List Step),
      emergencyCallPhones (Step.logE sidq et pl :: r) = emergencyCallPhones r :=
    fun _ _ _ _ => rfl
  rw [h1, emergencyCallPhones_append, emergencyCallPhones_append, h2,
    emergencyCallPhones_escUserSmsBlock, emergencyCallPhones_flatMap_esc,
    emergencyCallPhones_escPrimaryBlock]
  simp

/-- The database state immediately after a successful activation request:
one session row and its contact rows. -/
def activationDb (session : Session) (req : List ReqContact) : DBState :=
  addEmergencyContacts session.id (contactListOf req)
    { sessions := [session], contacts := [], events := [] }

theorem getSession_activationDb (session : Session) (req : List ReqContact) :
    getSession (activationDb session req) session.id = some session := by
  simp [activationDb, addEmergencyContacts, getSession]

theorem getPrimaryContact_activationDb (session : Session) (r0 : ReqContact)
    (rs : List ReqContact) :
    getPrimaryContact (activationDb session (r0 :: rs)) session.id =
      some ⟨session.id, normalizePhone r0.phone, 1, 0⟩ := by
  have hb : (r0.isPrimary || ((0 == 0) && decide (0 < (r0 :: rs).length))) = true := by
    simp
  unfold getPrimaryContact sessionContacts activationDb addEmergencyContacts contactListOf
  simp only [mapWithIndex, hb, List.nil_append]
  rw [List.filter_cons_of_pos]
  · rw [List.find?_cons_of_pos]
    · simp
    · simp
  · simp

/-- C3 (amended): for a session activated with a non-empty contact list, the
Level-2 voice alert is placed to exactly one contact: the first stored
contact in insertion order whose primary flag is set.  Because activation
always flags the first request contact as primary, that is the first request
contact's (normalized) phone — even when the request flagged a different,
non-first contact as the only primary. -/
theorem C3_primary_call_first_contact (w : World) (session : Session) (r0 : ReqContact)
    (rs : List ReqContact) :
    getPrimaryContact (activationDb session (r0 :: rs)) session.id =
      some ⟨session.id, normalizePhone r0.phone, 1, 0⟩ ∧
    emergencyCallPhones (triggerEscalationSteps w session.id (activationDb session (r0 :: rs))) =
      [normalizePhone r0.phone] := by
  refine ⟨getPrimaryContact_activationDb session r0 rs, ?_⟩
  rw [emergencyCallPhones_escalation w session.id _ session (getSession_activationDb session (r0 :: rs))]
  rw [getPrimaryContact_activationDb session r0 rs]

/-- Counterexample to C3 as stated: the activation request flags the second
contact as the only primary; the §3 rule applied to the request designates
that contact, but the code places the voice call to the first contact. -/
theorem C3_counterexample :
    emergencyCallPhones (triggerEscalationSteps exWorld exSid exC3Db) = [str ("+15550000001")] ∧
    (specPrimaryContact exReqContacts).map (fun c => normalizePhone c.phone)
      = some (str ("+15550000002")) ∧
    str ("+15550000001") ≠ str ("+15550000002") := by decide

/-! ## Scheduler (C6, C7) -/

/-- C7: a tick that begins while the previous tick's `isRunning` flag is
still set performs zero state mutations: it emits no steps at all, and
running it leaves the database — sessions, contacts and event log —
unchanged. -/
theorem C7_overlap_tick_no_mutation (w : World) (now now2 : Int) (db : DBState) :
    checkDueSessionsSteps w now true db = [] ∧
    run now2 (checkDueSessionsSteps w now true db) db = db :=
  ⟨rfl, rfl⟩

theorem insSorted_perm (le : α → α → Bool) (x : α) :
    ∀ l : List α, (insSorted le x l).Perm (x :: l)
  | [] => List.Perm.refl _
  | y :: ys => by
    unfold insSorted
    by_cases h : le x y = true
    · rw [if_pos h]
    · rw [if_neg h]
      exact ((insSorted_perm le x ys).cons y).trans (List.Perm.swap x y ys)

theorem insSortBy_perm (le : α → α → Bool) : ∀ l : List α, (insSortBy le l).Perm l
  | [] => List.Perm.refl _
  | x :: xs =>
    (insSorted_perm le x (insSortBy le xs)).trans ((insSortBy_perm le xs).cons x)

theorem mem_insSortBy {le : α → α → Bool} {l : List α} {x : α} :
    x ∈ insSortBy le l ↔ x ∈ l :=
  (insSortBy_perm le l).mem_iff

theorem mem_dueSessions {db : DBState} {now : Int} {s : Session} :
    s ∈ dueSessions db now ↔
      s ∈ db.sessions ∧ s.status = Status.pending ∧ s.scheduled_at ≤ now := by
  unfold dueSessions
  rw [List.mem_filter, mem_insSortBy, List.mem_filter]
  simp [and_assoc]

theorem dueSessions_nodup {db : DBState} {now : Int}
    (hnd : (db.sessions.map Session.id).Nodup) : (dueSessions db now).Nodup := by
  unfold dueSessions
  refine List.Nodup.filter _ ?_
  refine ((insSortBy_perm sessionLE _).nodup_iff).mpr ?_
  exact (hnd.of_map Session.id).filter _

theorem find?_eq_of_mem_nodup {s : Session} :
    ∀ l : List Session, s ∈ l → (l.map Session.id).Nodup →
      l.find? (fun x => x.id == s.id) = some s
  | [], hmem, _ => by simp at hmem
  | a :: as, hmem, hnd => by
    rw [List.find?_cons]
    by_cases h : (a.id == s.id) = true
    · rw [h]
      rcases List.mem_cons.mp hmem with h2 | h2
      · rw [h2]
      · exfalso
        rw [List.map_cons] at hnd
        refine (List.nodup_cons.mp hnd).1 ?_
        rw [beq_iff_eq] at h
        rw [h]
        exact List.mem_map_of_mem Session.id h2
    · rw [Bool.not_eq_true] at h
      rw [h]
      refine find?_eq_of_mem_nodup as ?_ ((List.map_cons .. ▸ hnd).of_cons)
      rcases List.mem_cons.mp hmem with h2 | h2
      · exfalso
        rw [h2] at h
        simp at h
      · exact h2

theorem getSession_of_mem_nodup {db : DBState} {s : Session}
    (hmem : s ∈ db.sessions) (hnd : (db.sessions.map Session.id).Nodup) :
    getSession db s.id = some s :=
  find?_eq_of_mem_nodup db.sessions hmem hnd

/-- Every step of another session's scheduler block leaves session `sid`
untouched. -/
theorem checkInSteps_touches (w : World) (s' : Session) (sid : Str) (hne : s'.id ≠ sid) :
    ∀ x ∈ checkInSteps w s', touchesSession sid x = false := by
  intro x hx
  have hbeq : (s'.id == sid) = false := beq_eq_false_iff_ne.mpr hne
  simp only [checkInSteps] at hx
  rcases List.mem_cons.mp hx with h | h
  · subst h
    rfl
  · rcases List.mem_cons.mp h with h | h
    · subst h
      simpa [touchesSession] using hbeq
    · rcases List.mem_cons.mp h with h | h
      · subst h
        rfl
      · cases hck : w.checkIn s'.user_phone s'.id <;> rw [hck] at h
        · simp only [List.mem_singleton] at h
          subst h
          rfl
        · rcases List.mem_cons.mp h with h | h
          · subst h
            rfl
          · simp only [List.mem_singleton] at h
            subst h
            simpa [touchesSession] using hbeq

/-- C6: for every due pending session processed by a (non-overlapping)
scheduler tick, the `call_initiated` event write and the `active` status
write occur consecutively and strictly before the provider initiation
attempt; on success the session ends the tick `active`; if initiation
throws, a `call_failed` event carrying the error is written and the status
is reverted to `pending`, leaving the row identical except `updated_at` —
no attempt counter, no backoff — so the session is in the due set of every
later tick whose clock has passed its unchanged `scheduled_at`. -/
theorem C6_scheduler_order_and_retry (w : World) (db : DBState) (now now2 : Int) (s : Session)
    (hmem : s ∈ db.sessions) (hpend : s.status = Status.pending) (hdue : s.scheduled_at ≤ now)
    (hnd : (db.sessions.map Session.id).Nodup) :
    ([Step.logE (some s.id) evCallInitiated (some [(kUserPhone, .s s.user_phone)]),
      Step.setStatus s.id Status.active,
      Step.checkInCall s.user_phone s.id (w.checkIn s.user_phone s.id)]
      <:+: checkDueSessionsSteps w now false db) ∧
    (∀ v, w.checkIn s.user_phone s.id = .ok v →
      getSession (run now2 (checkDueSessionsSteps w now false db) db) s.id =
        some { s with status := Status.active, updated_at := now2 }) ∧
    (∀ e, w.checkIn s.user_phone s.id = .error e →
      Step.logE (some s.id) evCallFailed (some [(kError, .s e)])
        ∈ checkDueSessionsSteps w now false db ∧
      getSession (run now2 (checkDueSessionsSteps w now false db) db) s.id =
        some { s with updated_at := now2 } ∧
      (∀ now3, s.scheduled_at ≤ now3 →
        { s with updated_at := now2 } ∈
          dueSessions (run now2 (checkDueSessionsSteps w now false db) db) now3)) := by
  have hdueMem : s ∈ dueSessions db now := mem_dueSessions.mpr ⟨hmem, hpend, hdue⟩
  obtain ⟨l1, l2, hsplit⟩ := List.append_of_mem hdueMem
  have hstepsExpand : checkDueSessionsSteps w now false db =
      l1.flatMap (checkInSteps w) ++ (checkInSteps w s ++ l2.flatMap (checkInSteps w)) := by
    show (dueSessions db now).flatMap (checkInSteps w) = _
    rw [hsplit, List.flatMap_append, List.flatMap_cons]
  have hndDue := @dueSessions_nodup db now hnd
  have hndSplit : (l1 ++ s :: l2).Nodup := hsplit ▸ hndDue
  have hs_notin_l1 : s ∉ l1 :=
    fun h => (List.nodup_append.mp hndSplit).2.2 h (List.mem_cons_self ..)
  have hs_notin_l2 : s ∉ l2 := (List.nodup_cons.mp (List.nodup_append.mp hndSplit).2.1).1
  have hinj := List.inj_on_of_nodup_map hnd
  have hne_of_ne : ∀ s' ∈ dueSessions db now, s' ≠ s → s'.id ≠ s.id := by
    intro s' h1 h2 h3
    exact h2 (hinj (mem_dueSessions.mp h1).1 hmem h3)
  have huL1 : ∀ x ∈ l1.flatMap (checkInSteps w), touchesSession s.id x = false := by
    intro x hx
    rcases List.mem_flatMap.mp hx with ⟨s', hs', hxs⟩
    have hmem' : s' ∈ dueSessions db now := by
      rw [hsplit]
      exact List.mem_append_left _ hs'
    have hne : s' ≠ s := fun h => hs_notin_l1 (h ▸ hs')
    exact checkInSteps_touches w s' s.id (hne_of_ne s' hmem' hne) x hxs
  have huL2 : ∀ x ∈ l2.flatMap (checkInSteps w), touchesSession s.id x = false := by
    intro x hx
    rcases List.mem_flatMap.mp hx with ⟨s', hs', hxs⟩
    have hmem' : s' ∈ dueSessions db now := by
      rw [hsplit]
      exact List.mem_append_right _ (List.mem_cons_of_mem _ hs')
    have hne : s' ≠ s := fun h => hs_notin_l2 (h ▸ hs')
    exact checkInSteps_touches w s' s.id (hne_of_ne s' hmem' hne) x hxs
  have hget : getSession db s.id = some s := getSession_of_mem_nodup hmem hnd
  refine ⟨?_, ?_, ?_⟩
  · rw [hstepsExpand]
    cases hck : w.checkIn s.user_phone s.id with
    | ok v =>
      refine ⟨l1.flatMap (checkInSteps w),
        Step.logE (some s.id) evCallOutboundSent (some [(kUserPhone, .s s.user_phone)]) ::
          l2.flatMap (checkInSteps w), ?_⟩
      simp [checkInSteps, hck, List.append_assoc]
    | error e =>
      refine ⟨l1.flatMap (checkInSteps w),
        Step.logE (some s.id) evCallFailed (some [(kError, .s e)]) ::
          Step.setStatus s.id Status.pending :: l2.flatMap (checkInSteps w), ?_⟩
      simp [checkInSteps, hck, List.append_assoc]
  · intro v hck
    have hmine : checkInSteps w s =
        [Step.logE (some s.id) evCallInitiated (some [(kUserPhone, .s s.user_phone)])] ++
        Step.setStatus s.id Status.active ::
        [Step.checkInCall s.user_phone s.id (w.checkIn s.user_phone s.id),
         Step.logE (some s.id) evCallOutboundSent (some [(kUserPhone, .s s.user_phone)])] := by
      simp [checkInSteps, hck]
    have hshape : checkDueSessionsSteps w now false db =
        (l1.flatMap (checkInSteps w) ++
          [Step.logE (some s.id) evCallInitiated (some [(kUserPhone, .s s.user_phone)])]) ++
        Step.setStatus s.id Status.active ::
        ([Step.checkInCall s.user_phone s.id (w.checkIn s.user_phone s.id),
          Step.logE (some s.id) evCallOutboundSent (some [(kUserPhone, .s s.user_phone)])] ++
         l2.flatMap (checkInSteps w)) := by
      rw [hstepsExpand, hmine]
      simp [List.append_assoc]
    rw [hshape]
    refine getSession_run_single_setStatus now2 db s.id s Status.active _ _ hget ?_ ?_
    · intro x hx
      rcases List.mem_append.mp hx with h | h
      · exact huL1 x h
      · simp only [List.mem_singleton] at h
        subst h
        rfl
    · intro x hx
      rcases List.mem_append.mp hx with h | h
      · rcases List.mem_cons.mp h with h | h
        · subst h
          rfl
        · simp only [List.mem_singleton] at h
          subst h
          rfl
      · exact huL2 x h
  · intro e hck
    have hmineEq : checkInSteps w s =
        [Step.logE (some s.id) evCallInitiated (some [(kUserPhone, .s s.user_phone)]),
         Step.setStatus s.id Status.active,
         Step.checkInCall s.user_phone s.id (w.checkIn s.user_phone s.id),
         Step.logE (some s.id) evCallFailed (some [(kError, .s e)]),
         Step.setStatus s.id Status.pending] := by
      simp [checkInSteps, hck]
    have hFs : runSession now2 (checkDueSessionsSteps w now false db) s =
        { s with updated_at := now2 } := by
      rw [hstepsExpand, runSession_append]
      rw [runSession_untouched now2 _ huL1, runSession_append]
      have h2 : runSession now2 (checkInSteps w s) s =
          { s with status := Status.pending, updated_at := now2 } := by
        rw [hmineEq]
        simp [runSession, stepSession]
      rw [h2]
      rw [@runSession_untouched now2 { s with status := Status.pending, updated_at := now2 } _
        fun x hx => huL2 x hx]
      rw [← hpend]
    refine ⟨?_, ?_, ?_⟩
    · rw [hstepsExpand]
      refine List.mem_append_right _ (List.mem_append_left _ ?_)
      rw [hmineEq]
      simp
    · rw [getSession_run, hget, Option.map_some', hFs]
    · intro now3 hn3
      refine mem_dueSessions.mpr ⟨?_, hpend, hn3⟩
      rw [run_sessions]
      exact hFs ▸ List.mem_map_of_mem _ hmem

def exPendingSession : Session where
  id := str ("p1")
  user_phone := str ("+15550001111")
  safe_word := str ("pineapple")
  escalation_word := str ("banana")
  location := none
  scheduled_at := -5
  status := Status.pending
  created_at := 0
  updated_at := 0

def exSchedDb : DBState where
  sessions := [exPendingSession]
  contacts := []
  events := []

def exFailCheckInWorld : World :=
  { exWorld with checkIn := fun _ _ => .error (str ("unreachable")) }

/-- Witness for C6: a due pending session with a failing provider — the
event/status writes precede the attempt, `call_failed` is logged, the row
reverts to pending with only `updated_at` changed, and it is due again on
the next tick. -/
theorem C6_scheduler_order_and_retry_witness :
    ([Step.logE (some exPendingSession.id) evCallInitiated
        (some [(kUserPhone, .s exPendingSession.user_phone)]),
      Step.setStatus exPendingSession.id Status.active,
      Step.checkInCall exPendingSession.user_phone exPendingSession.id
        (exFailCheckInWorld.checkIn exPendingSession.user_phone exPendingSession.id)]
      <:+: checkDueSessionsSteps exFailCheckInWorld 0 false exSchedDb) ∧
    Step.logE (some exPendingSession.id) evCallFailed (some [(kError, .s (str ("unreachable")))])
      ∈ checkDueSessionsSteps exFailCheckInWorld 0 false exSchedDb ∧
    getSession (run 1 (checkDueSessionsSteps exFailCheckInWorld 0 false exSchedDb) exSchedDb)
        exPendingSession.id
      = some { exPendingSession with updated_at := 1 } ∧
    { exPendingSession with updated_at := 1 }
      ∈ dueSessions (run 1 (checkDueSessionsSteps exFailCheckInWorld 0 false exSchedDb) exSchedDb) 2 := by
  have T := C6_scheduler_order_and_retry exFailCheckInWorld exSchedDb 0 1 exPendingSession
    (by decide) rfl (by decide) (by decide)
  have T3 := T.2.2 (str ("unreachable")) rfl
  exact ⟨T.1, T3.1, T3.2.1, T3.2.2 2 (by decide)⟩

/-! ## Late location submission (C9) -/

/-- Trace of the send-location route on valid input. -/
theorem sendLocationSteps_eq (w : World) (db : DBState) (sid loc : Str) (session : Session)
    (hsid : sid.isEmpty = false)
    (hloc : loc.isEmpty = false)
    (hs : getSession db sid = some session)
    (hlen1 : (jsTrim loc).isEmpty = false)
    (hlen2 : (jsTrim loc).length ≤ 500) :
    sendLocationSteps w sid loc db =
      Step.setLocation sid (jsTrim loc) ::
      Step.logE (some sid) evLocationSubmitted
        (some [(kLocation, .s (jsTrim loc)), (kSubmittedAt, .s w.nowIso)]) ::
      (getEmergencyContacts db sid).flatMap (locContactBlock w sid (jsTrim loc) session.user_phone) := by
  have h500 : decide (500 < (jsTrim loc).length) = false := by
    rw [decide_eq_false_iff_not]
    omega
  simp only [sendLocationSteps, hsid, hloc, hs, hlen1, h500]
  simp

/-- C9: submitting a valid (1-500 chars after trimming) location for an
existing session persists the trimmed location on that session — leaving its
status and every field other than `location` and `updated_at` unchanged,
and leaving every other session row untouched — logs a `location_submitted`
event, and re-broadcasts an updated-location alert embedding the new text to
every emergency contact, logging each send's outcome under its own address. -/
theorem C9_send_location_frame (w : World) (db : DBState) (sid loc : Str) (session : Session)
    (now : Int)
    (hsid : sid.isEmpty = false)
    (hloc : loc.isEmpty = false)
    (hs : getSession db sid = some session)
    (hlen1 : (jsTrim loc).isEmpty = false)
    (hlen2 : (jsTrim loc).length ≤ 500) :
    getSession (run now (sendLocationSteps w sid loc db) db) sid =
      some { session with location := some (jsTrim loc), updated_at := now } ∧
    (∀ s2 ∈ db.sessions, s2.id ≠ sid → s2 ∈ (run now (sendLocationSteps w sid loc db) db).sessions) ∧
    Event.mk (some sid) evLocationSubmitted
        (some [(kLocation, .s (jsTrim loc)), (kSubmittedAt, .s w.nowIso)])
      ∈ (run now (sendLocationSteps w sid loc db) db).events ∧
    (∀ c ∈ getEmergencyContacts db sid,
      Step.smsSend c.phone_number (locationUpdateSmsBody session.user_phone (jsTrim loc))
          (w.sms c.phone_number (locationUpdateSmsBody session.user_phone (jsTrim loc)))
        ∈ sendLocationSteps w sid loc db ∧
      jsTrim loc <:+: locationUpdateSmsBody session.user_phone (jsTrim loc) ∧
      (∀ v, w.sms c.phone_number (locationUpdateSmsBody session.user_phone (jsTrim loc)) = .ok v →
        Event.mk (some sid) evLocationUpdateSmsSent
            (some [(kTo, .s c.phone_number), (kLocation, .s (jsTrim loc))])
          ∈ (run now (sendLocationSteps w sid loc db) db).events) ∧
      (∀ e, w.sms c.phone_number (locationUpdateSmsBody session.user_phone (jsTrim loc)) = .error e →
        Event.mk (some sid) evLocationUpdateSmsFailed
            (some [(kTo, .s c.phone_number), (kError, .s e)])
          ∈ (run now (sendLocationSteps w sid loc db) db).events)) := by
  have hid : session.id = sid := getSession_id hs
  have hEq := sendLocationSteps_eq w db sid loc session hsid hloc hs hlen1 hlen2
  have hrest_no_mut : ∀ x ∈ Step.logE (some sid) evLocationSubmitted
      (some [(kLocation, .s (jsTrim loc)), (kSubmittedAt, .s w.nowIso)]) ::
      (getEmergencyContacts db sid).flatMap (locContactBlock w sid (jsTrim loc) session.user_phone),
      mutatesSessions x = false := by
    intro x hx
    rcases List.mem_cons.mp hx with h | h
    · subst h
      rfl
    · exact flatMap_no_mut (fun c _ => locContactBlock_no_mut w sid _ _ c) x h
  refine ⟨?_, ?_, ?_, ?_⟩
  · rw [getSession_run, hs, Option.map_some', hEq, runSession_cons]
    have h2 : stepSession now session (Step.setLocation sid (jsTrim loc)) =
        { session with location := some (jsTrim loc), updated_at := now } := by
      simp only [stepSession]
      rw [if_pos]
      rw [hid]
      exact beq_self_eq_true sid
    rw [h2]
    rw [@runSession_untouched now { session with location := some (jsTrim loc), updated_at := now } _
      fun x hx => hid ▸ touches_of_mutates (hrest_no_mut x hx)]
  · intro s2 hs2 hne
    rw [run_sessions]
    have : runSession now (sendLocationSteps w sid loc db) s2 = s2 := by
      refine runSession_untouched now _ ?_
      rw [hEq]
      intro x hx
      rcases List.mem_cons.mp hx with h | h
      · subst h
        simp only [touchesSession]
        rw [beq_eq_false_iff_ne]
        exact fun h2 => hne h2.symm
      · exact touches_of_mutates (hrest_no_mut x h)
    exact this ▸ List.mem_map_of_mem _ hs2
  · refine mem_events_run ?_
    rw [hEq]
    exact List.mem_cons_of_mem _ (List.mem_cons_self ..)
  · intro c hc
    have hblock : ∀ y ∈ locContactBlock w sid (jsTrim loc) session.user_phone c,
        y ∈ sendLocationSteps w sid loc db := by
      intro y hy
      rw [hEq]
      exact List.mem_cons_of_mem _ (List.mem_cons_of_mem _ (List.mem_flatMap.mpr ⟨c, hc, hy⟩))
    refine ⟨?_, ?_, ?_, ?_⟩
    · refine hblock _ ?_
      simp only [locContactBlock]
      exact List.mem_cons_self ..
    · refine ⟨str ("🚨 GUARDIAN AI - LOCATION UPDATE 🚨\n\nUser ") ++ session.user_phone
        ++ str (" has provided their location.\n\nLocation: "),
        str ("\n\nPlease check on them immediately.\n\nThis is an automated alert from Guardian AI."), ?_⟩
      simp [locationUpdateSmsBody, List.append_assoc]
    · intro v hv
      refine mem_events_run (hblock _ ?_)
      simp only [locContactBlock, hv]
      exact List.mem_cons_of_mem _ (List.mem_singleton.mpr rfl)
    · intro e he
      refine mem_events_run (hblock _ ?_)
      simp only [locContactBlock, he]
      exact List.mem_cons_of_mem _ (List.mem_singleton.mpr rfl)

/-- Witness for C9 at a concrete escalated session with two contacts. -/
theorem C9_send_location_frame_witness :
    getSession (run 0 (sendLocationSteps exWorld exSid (str ("  123 Main St  ")) exEscDb) exEscDb) exSid
      = some { exSession with location := some (str ("123 Main St")), updated_at := 0 } ∧
    Event.mk (some exSid) evLocationSubmitted
        (some [(kLocation, .s (str ("123 Main St"))), (kSubmittedAt, .s exWorld.nowIso)])
      ∈ (run 0 (sendLocationSteps exWorld exSid (str ("  123 Main St  ")) exEscDb) exEscDb).events := by
  have T := C9_send_location_frame exWorld exEscDb exSid (str ("  123 Main St  ")) exSession 0
    (by decide) (by decide) (by decide) (by decide) (by decide)
  have htrim : jsTrim (str ("  123 Main St  ")) = str ("123 Main St") := by decide
  exact ⟨by rw [← htrim]; exact T.1, by rw [← htrim]; exact T.2.2.1⟩

/-- Witness for C5: a score of 0.71 escalates, a score of 0.69 completes. -/
theorem C5_unknown_classifier_threshold_witness :
    getSession (run 0 (recordingCompleteSteps exHighWorld (some exSid) exUnknownBody exDb) exDb) exSid
      = some { exSession with status := Status.escalated, updated_at := 0 } ∧
    getSession (run 0 (recordingCompleteSteps exLowWorld (some exSid) exUnknownBody exDb) exDb) exSid
      = some { exSession with status := Status.completed, updated_at := 0 } :=
  ⟨(C5_unknown_classifier_threshold exHighWorld exDb exSid exSession exUnknownBody 0
      (by decide) rfl (by decide) (by decide)).1 exHigh_distressed,
   (C5_unknown_classifier_threshold exLowWorld exDb exSid exSession exUnknownBody 0
      (by decide) rfl (by decide) (by decide)).2.1 exLow_calm⟩

end Guardian
